import Mathlib

/-!
Verification development for a small Go IRC server.

The Go sources are shallowly embedded: Go maps become association lists
(a deterministic refinement of Go's unordered maps — none of the verified
claims depend on iteration order), pointer mutation becomes explicit state
passing, and every handler returns the updated state together with the list
of `(recipient nickname, message)` pairs it encoded.  Names follow the Go
sources (`Channel.Join`, `ChannelModeHandler`, ...).
-/

namespace IrcSpec

/-! ## Association-list helpers (Go `map` refinement) -/

/-- Lookup in an association list (Go map read). -/
def lookupA {α : Type} (l : List (String × α)) (k : String) : Option α :=
  match l with
  | [] => none
  | (k1, v) :: rest => if k1 = k then some v else lookupA rest k

/-- Insert-or-overwrite in an association list (Go map write). -/
def setA {α : Type} (l : List (String × α)) (k : String) (v : α) :
    List (String × α) :=
  match l with
  | [] => [(k, v)]
  | (k1, w) :: rest => if k1 = k then (k, v) :: rest else (k1, w) :: setA rest k v

/-- Delete from an association list (Go `delete`). -/
def eraseA {α : Type} (l : List (String × α)) (k : String) : List (String × α) :=
  match l with
  | [] => []
  | (k1, w) :: rest => if k1 = k then eraseA rest k else (k1, w) :: eraseA rest k

/-! ## Mode sets (modes.go) -/

/-- Values carried by parameterised channel modes (`interface\x7b\x7d` payloads in Go:
key holds a string, limit an int, ban/exception/invite masks hold a set of masks). -/
inductive ModeValue where
  | str : String → ModeValue
  | int : Int → ModeValue
  | masks : List String → ModeValue
deriving Repr, DecidableEq

/-- `ChannelModeSet`: Go `map[ChannelMode]interface\x7b\x7d`.  A flag is present when its
character is a key; plain flags map to `none`, valued flags to `some v`. -/
abbrev CModeSet := List (Char × Option ModeValue)

/-- Lookup in a mode set. -/
def cmsLookup (ms : CModeSet) (m : Char) : Option (Option ModeValue) :=
  match ms with
  | [] => none
  | (k, v) :: rest => if k = m then some v else cmsLookup rest m

/-- Insert-or-overwrite in a mode set. -/
def cmsSet (ms : CModeSet) (m : Char) (v : Option ModeValue) : CModeSet :=
  match ms with
  | [] => [(m, v)]
  | (k, w) :: rest => if k = m then (m, v) :: rest else (k, w) :: cmsSet rest m v

/-- Delete from a mode set. -/
def cmsErase (ms : CModeSet) (m : Char) : CModeSet :=
  match ms with
  | [] => []
  | (k, w) :: rest => if k = m then cmsErase rest m else (k, w) :: cmsErase rest m

/-- `ChannelModeSet.HasMode`. -/
def cmsHasMode (ms : CModeSet) (m : Char) : Bool :=
  (cmsLookup ms m).isSome

/-- `ChannelModeSet.AddMode` (stores a nil value, overwriting any previous value). -/
def cmsAddMode (ms : CModeSet) (m : Char) : CModeSet :=
  cmsSet ms m none

/-- `ChannelModeSet.AddModeWithValue`. -/
def cmsAddModeWithValue (ms : CModeSet) (m : Char) (v : ModeValue) : CModeSet :=
  cmsSet ms m (some v)

/-- `ChannelModeSet.RemoveMode`. -/
def cmsRemoveMode (ms : CModeSet) (m : Char) : CModeSet :=
  cmsErase ms m

/-- `ChannelModeSet.GetMode`: a missing key and a nil value both read as nil. -/
def cmsGetMode (ms : CModeSet) (m : Char) : Option ModeValue :=
  match cmsLookup ms m with
  | none => none
  | some v => v

/-- `ChannelModeSet.GetLimit`: 0 when unset. -/
def cmsGetLimit (ms : CModeSet) : Int :=
  match cmsGetMode ms 'l' with
  | some (ModeValue.int n) => n
  | _ => 0

/-- `ChannelModeSet.SetLimit`. -/
def cmsSetLimit (ms : CModeSet) (n : Int) : CModeSet :=
  cmsAddModeWithValue ms 'l' (ModeValue.int n)

/-- `ChannelModeSet.SetKey`. -/
def cmsSetKey (ms : CModeSet) (k : String) : CModeSet :=
  cmsAddModeWithValue ms 'k' (ModeValue.str k)

/-- `ChannelModeSet.GetKey`: empty string when unset. -/
def cmsGetKey (ms : CModeSet) : String :=
  match cmsGetMode ms 'k' with
  | some (ModeValue.str s) => s
  | _ => ""

/-- Read a mask list stored under flag `m` (`GetBanMasks` etc.: empty when unset). -/
def cmsGetMasks (ms : CModeSet) (m : Char) : List String :=
  match cmsGetMode ms m with
  | some (ModeValue.masks l) => l
  | _ => []

/-- Add a mask under flag `m` (`AddBanMask` etc.; Go inserts into the mask map). -/
def cmsAddMask (ms : CModeSet) (m : Char) (mask : String) : CModeSet :=
  let masks := cmsGetMasks ms m
  let masks2 := if mask ∈ masks then masks else masks ++ [mask]
  cmsAddModeWithValue ms m (ModeValue.masks masks2)

/-- Render one mode value for `ChannelModeSet.String` (`fmt.Sprintf " %v"`). -/
def mvRender (v : ModeValue) : String :=
  match v with
  | ModeValue.str s => s
  | ModeValue.int n => toString n
  | ModeValue.masks _ => ""

/-- `ChannelModeSet.String`: `+` then the flags among k l m a i p s t (in set
order), then the non-nil values of those flags in the same order. -/
def cmsString (ms : CModeSet) : String :=
  let shown := ms.filter (fun p =>
    p.1 = 'k' ∨ p.1 = 'l' ∨ p.1 = 'm' ∨ p.1 = 'a' ∨ p.1 = 'i' ∨ p.1 = 'p' ∨
      p.1 = 's' ∨ p.1 = 't')
  let flags := String.mk (shown.map (fun p => p.1))
  let params := shown.foldl (fun acc p =>
    match p.2 with
    | some v => acc ++ " " ++ mvRender v
    | none => acc) ""
  "+" ++ flags ++ params

/-- `UserModeSet`: a set of single-character user flags. -/
abbrev UModeSet := List Char

/-- `UserModeSet.AddMode`. -/
def umAddMode (ms : UModeSet) (m : Char) : UModeSet :=
  if m ∈ ms then ms else ms ++ [m]

/-- `UserModeSet.RemoveMode`. -/
def umRemoveMode (ms : UModeSet) (m : Char) : UModeSet :=
  ms.filter (fun c => c ≠ m)

/-- `UserModeSet.HasMode`. -/
def umHasMode (ms : UModeSet) (m : Char) : Bool :=
  ms.contains m

/-- `UserModeSet.String`: empty when no modes, else `+` followed by the flags. -/
def umString (ms : UModeSet) : String :=
  if ms.length > 0 then "+" ++ String.mk ms else ""

/-- The supported user modes (`UserModes` map in modes.go). -/
def UserModes : List Char := ['a', 'i', 'w', 'r', 'o', 'O', 's']

/-! ## Messages (the sorcix/irc codec contract) -/

/-- An IRC wire message as consumed by the core: prefix name (none when the Go
code passes a nil prefix), command, parameters and trailing. -/
structure Message where
  pfx : Option String := none
  command : String
  params : List String := []
  trailing : String := ""
deriving Repr, DecidableEq

/-- Numeric command strings as defined by sorcix/irc (RFC numerics). -/
def ERR_NEEDMOREPARAMS : String := "461"

def ERR_NORECIPIENT : String := "411"

def ERR_TOOMANYTARGETS : String := "407"

def ERR_NOTEXTTOSEND : String := "412"

def ERR_NOSUCHNICK : String := "401"

def ERR_NOSUCHCHANNEL : String := "403"

def ERR_CHANOPRIVSNEEDED : String := "482"

def ERR_UNKNOWNMODE : String := "472"

def ERR_USERSDONTMATCH : String := "502"

def ERR_UMODEUNKNOWNFLAG : String := "501"

def ERR_BADCHANNELKEY : String := "475"

def ERR_CHANNELISFULL : String := "471"

def ERR_NOTONCHANNEL : String := "442"

def ERR_USERNOTINCHANNEL : String := "441"

def RPL_CHANNELMODEIS : String := "324"

def RPL_UMODEIS : String := "221"

def RPL_BANLIST : String := "367"

def RPL_ENDOFBANLIST : String := "368"

def RPL_EXCEPTLIST : String := "348"

def RPL_ENDOFEXCEPTLIST : String := "349"

def RPL_INVITELIST : String := "346"

def RPL_ENDOFINVITELIST : String := "347"

def RPL_TOPIC : String := "332"

def RPL_NOTOPIC : String := "331"

def RPL_NAMREPLY : String := "353"

def RPL_ENDOFNAMES : String := "366"

/-- Character-list core of `splitComma`. -/
def splitCommaChars (l : List Char) : List (List Char) :=
  match l with
  | [] => [[]]
  | c :: rest =>
    let r := splitCommaChars rest
    if c = ',' then [] :: r
    else
      match r with
      | [] => [[c]]
      | g :: gs => (c :: g) :: gs

/-- Go `strings.Split(s, ",")`: the empty string yields one empty field, and
separators at the ends yield empty fields. -/
def splitComma (s : String) : List String :=
  (splitCommaChars s.toList).map String.mk

/-! ## Data model: Client, Channel, ServerState -/

/-- One client connection.  `registered` is set by `Welcome` after NICK and
USER are both accepted; `channels` is the per-client joined-channel index. -/
structure Client where
  nickname : String := ""
  username : String := ""
  realName : String := ""
  host : String := ""
  registered : Bool := false
  userModes : UModeSet := []
  awayMessage : String := ""
  channels : List String := []
deriving Repr, DecidableEq

/-- An IRC channel: name, mode set, topic, key and the member map
(nick → per-member mode set). -/
structure Channel where
  name : String
  modes : CModeSet := []
  topic : String := ""
  key : String := ""
  members : List (String × CModeSet) := []
deriving Repr, DecidableEq

/-- The server directory: nickname → client and channel-name → channel,
plus the server name used in server-sourced prefixes. -/
structure ServerState where
  serverName : String := "localhost"
  clientsByNick : List (String × Client) := []
  channels : List (String × Channel) := []
deriving Repr, DecidableEq

/-- `Server.GetChannel`. -/
def ServerState.GetChannel (st : ServerState) (name : String) : Option Channel :=
  lookupA st.channels name

/-- `Server.AddChannel` (also models in-place pointer updates of a stored channel). -/
def ServerState.SetChannel (st : ServerState) (ch : Channel) : ServerState :=
  { st with channels := setA st.channels ch.name ch }

/-- `Server.RemoveChannel`. -/
def ServerState.RemoveChannel (st : ServerState) (name : String) : ServerState :=
  { st with channels := eraseA st.channels name }

/-- `Server.GetClientByNick`. -/
def ServerState.GetClientByNick (st : ServerState) (nick : String) : Option Client :=
  lookupA st.clientsByNick nick

/-- Update the directory entry of a client (models mutation through the shared
pointer, e.g. `kickedClient.RemoveChannel`). -/
def ServerState.SetClient (st : ServerState) (cl : Client) : ServerState :=
  { st with clientsByNick := setA st.clientsByNick cl.nickname cl }

/-- `Channel.HasMember`. -/
def Channel.HasMember (ch : Channel) (nick : String) : Bool :=
  (lookupA ch.members nick).isSome

/-- `Channel.GetMemberCount`. -/
def Channel.GetMemberCount (ch : Channel) : Int :=
  Int.ofNat ch.members.length

/-- `Channel.AddMember`: no-op when already a member, else insert with an empty
member-mode set. -/
def Channel.AddMember (ch : Channel) (nick : String) : Channel :=
  match lookupA ch.members nick with
  | some _ => ch
  | none => { ch with members := ch.members ++ [(nick, ([] : CModeSet))] }

/-- `Channel.MemberHasMode`. -/
def Channel.MemberHasMode (ch : Channel) (nick : String) (m : Char) : Bool :=
  match lookupA ch.members nick with
  | none => false
  | some ms => cmsHasMode ms m

/-- `Channel.AddMemberMode`: only touches existing members. -/
def Channel.AddMemberMode (ch : Channel) (nick : String) (m : Char) : Channel :=
  match lookupA ch.members nick with
  | none => ch
  | some ms => { ch with members := setA ch.members nick (cmsAddMode ms m) }

/-- `Channel.RemoveMemberMode`: only touches existing members. -/
def Channel.RemoveMemberMode (ch : Channel) (nick : String) (m : Char) : Channel :=
  match lookupA ch.members nick with
  | none => ch
  | some ms => { ch with members := setA ch.members nick (cmsRemoveMode ms m) }

/-- `Channel.RemoveMember` together with the `delete` self-destruct: remove the
nick; when the member map becomes empty the channel is removed from the
directory, otherwise the updated channel is stored back. -/
def Channel.RemoveMemberS (st : ServerState) (ch : Channel) (nick : String) :
    ServerState × Channel :=
  let ch2 : Channel := { ch with members := eraseA ch.members nick }
  if ch2.members = [] then (st.RemoveChannel ch2.name, ch2)
  else (st.SetChannel ch2, ch2)

/-- `Client.AddChannel`. -/
def Client.AddChannel (cl : Client) (name : String) : Client :=
  if name ∈ cl.channels then cl else { cl with channels := cl.channels ++ [name] }

/-- `Client.RemoveChannel`. -/
def Client.RemoveChannel (cl : Client) (name : String) : Client :=
  { cl with channels := cl.channels.filter (fun c => c ≠ name) }

/-- An encoded outbound line: recipient nickname paired with the message. -/
abbrev Out := List (String × Message)

/-- `Channel.SendMessage`: encode to every member that resolves in the
nickname directory. -/
def Channel.SendMessageTo (ch : Channel) (st : ServerState) (m : Message) : Out :=
  ch.members.filterMap (fun p =>
    match st.GetClientByNick p.1 with
    | some _ => some (p.1, m)
    | none => none)

/-- `Channel.SendMessageToOthers`: as `SendMessage` but skipping the sender. -/
def Channel.SendMessageToOthersOf (ch : Channel) (st : ServerState) (m : Message)
    (sender : String) : Out :=
  ch.members.filterMap (fun p =>
    if p.1 = sender then none
    else
      match st.GetClientByNick p.1 with
      | some _ => some (p.1, m)
      | none => none)

/-! ## channel.go operations -/

/-- First character of the channel name (`channel.Name[0]`).  Go panics on an
empty name; the fallback character falls into the non-special branch and is
unreachable in the modelled runs, which use nonempty names. -/
def Channel.nameStart (ch : Channel) : Char :=
  match ch.name.toList with
  | [] => '?'
  | c :: _ => c

/-- `Channel.Names` (channel.go): suppressed for non-members on secret or
private channels; otherwise RPL_NAMREPLY lines batching members in groups of
20, followed by RPL_ENDOFNAMES. -/
def Channel.NamesOf (ch : Channel) (st : ServerState) (cl : Client) : Out :=
  if cmsHasMode ch.modes 's' ∧ ¬ ch.HasMember cl.nickname then []
  else if cmsHasMode ch.modes 'p' ∧ ¬ ch.HasMember cl.nickname then []
  else
    let allMembers := ch.members.map (fun p => p.1)
    let channelPrefix :=
      if cmsHasMode ch.modes 'p' then "*"
      else if cmsHasMode ch.modes 's' then "@" else "="
    let n := ch.members.length
    let lines := (List.range (n / 20 + 1)).map (fun i =>
      let batch := (allMembers.drop (i * 20)).take 20
      let memberStr := batch.foldl (fun acc member =>
        match st.GetClientByNick member with
        | none => acc
        | some mClient =>
          let acc :=
            if ch.MemberHasMode mClient.nickname 'o' then acc ++ "@"
            else if ch.MemberHasMode mClient.nickname 'v' then acc ++ "+"
            else acc
          acc ++ mClient.nickname ++ " ") ""
      (cl.nickname,
        { pfx := some st.serverName, command := RPL_NAMREPLY,
          params := [cl.nickname, channelPrefix, ch.name],
          trailing := memberStr : Message }))
    lines ++
      [(cl.nickname,
        { pfx := some st.serverName, command := RPL_ENDOFNAMES,
          params := [cl.nickname, ch.name], trailing := "End of NAMES list" })]

/-- `Channel.Join` (channel.go lines 34-83): silent no-op when already a
member; key check aborts with ERR_BADCHANNELKEY; the limit check emits
ERR_CHANNELISFULL but does not abort; then the member is inserted, the first
joiner receives channel-operator mode (and sets the key when nonempty), the
topic is echoed when nonempty, JOIN is broadcast and a NAMES reply follows. -/
def Channel.Join (st : ServerState) (cl : Client) (ch : Channel) (key : String) :
    ServerState × Client × Out :=
  if ch.HasMember cl.nickname then (st, cl, [])
  else if cmsHasMode ch.modes 'k' ∧ ch.key ≠ key then
    (st, cl,
      [(cl.nickname,
        { pfx := some st.serverName, command := ERR_BADCHANNELKEY,
          params := [cl.nickname, ch.name], trailing := "Cannot join channel (+k)" })])
  else
    let fullMsgs : Out :=
      if cmsHasMode ch.modes 'l' ∧ ch.GetMemberCount ≥ cmsGetLimit ch.modes then
        [(cl.nickname,
          { pfx := some st.serverName, command := ERR_CHANNELISFULL,
            params := [cl.nickname, ch.name], trailing := "Cannot join channel (+l)" })]
      else []
    let creator := ch.GetMemberCount = 0
    let ch1 := ch.AddMember cl.nickname
    let cl1 := cl.AddChannel ch.name
    let ch2 :=
      if creator then
        let cho := ch1.AddMemberMode cl.nickname 'o'
        if key ≠ "" then { cho with modes := cmsSetKey cho.modes key } else cho
      else ch1
    let topicMsgs : Out :=
      if ch2.topic ≠ "" then
        [(cl.nickname,
          { pfx := some st.serverName, command := RPL_TOPIC,
            params := [ch2.name], trailing := ch2.topic })]
      else []
    let joinMsg : Message :=
      { pfx := some cl.nickname, command := "JOIN", params := [ch2.name] }
    let broadcast := ch2.SendMessageTo st joinMsg
    let namesOut := ch2.NamesOf st cl1
    (st.SetChannel ch2, cl1, fullMsgs ++ topicMsgs ++ broadcast ++ namesOut)

/-- `Channel.Part` (channel.go lines 159-176): ERR_NOTONCHANNEL for a
non-member, else broadcast PART, remove membership (self-destructing an
emptied channel) and drop the channel from the client's index. -/
def Channel.Part (st : ServerState) (cl : Client) (ch : Channel)
    (message : String) : ServerState × Client × Out :=
  if ¬ ch.HasMember cl.nickname then
    (st, cl,
      [(cl.nickname,
        { pfx := some st.serverName, command := ERR_NOTONCHANNEL,
          params := [ch.name], trailing := "You're not on that channel" })])
  else
    let m : Message :=
      { pfx := some cl.nickname, command := "PART", params := [ch.name],
        trailing := if message ≠ "" then message else "" }
    let broadcast := ch.SendMessageTo st m
    ((Channel.RemoveMemberS st ch cl.nickname).1, cl.RemoveChannel ch.name, broadcast)

/-- `Channel.Quit` (channel.go lines 179-194): silent for a non-member, else
broadcast QUIT and remove membership (self-destructing an emptied channel).
The client's own channel index is not touched here. -/
def Channel.QuitOf (st : ServerState) (cl : Client) (ch : Channel)
    (message : String) : ServerState × Out :=
  if ¬ ch.HasMember cl.nickname then (st, [])
  else
    let m : Message :=
      { pfx := some cl.nickname, command := "QUIT", params := [ch.name],
        trailing := if message ≠ "" then message else "" }
    let broadcast := ch.SendMessageTo st m
    ((Channel.RemoveMemberS st ch cl.nickname).1, broadcast)

/-- `Channel.Message`: forward PRIVMSG to every member except the sender. -/
def Channel.MessageOf (st : ServerState) (cl : Client) (ch : Channel)
    (text : String) : Out :=
  ch.SendMessageToOthersOf st
    { pfx := some cl.nickname, command := "PRIVMSG", params := [ch.name],
      trailing := text } cl.nickname

/-- `Channel.Notice`: forward NOTICE to every member except the sender. -/
def Channel.NoticeOf (st : ServerState) (cl : Client) (ch : Channel)
    (text : String) : Out :=
  ch.SendMessageToOthersOf st
    { pfx := some cl.nickname, command := "NOTICE", params := [ch.name],
      trailing := text } cl.nickname

/-- The per-target loop of `Channel.Kick`: looks each target up in the
server-wide nickname directory; an unknown nick draws ERR_USERNOTINCHANNEL and
aborts the remaining targets (Go `return`); a known nick — member or not — gets
KICK broadcast to the members and is removed. -/
def Channel.kickLoop (st : ServerState) (cl : Client) (ch : Channel)
    (kicked : List String) (message : String) : ServerState × Out :=
  match kicked with
  | [] => (st, [])
  | kickedName :: rest =>
    match st.GetClientByNick kickedName with
    | none =>
      (st,
        [(cl.nickname,
          { pfx := some st.serverName, command := ERR_USERNOTINCHANNEL,
            params := [cl.nickname, kickedName, ch.name],
            trailing := "They aren't on that channel" })])
    | some kickedClient =>
      let m : Message :=
        { pfx := some cl.nickname, command := "KICK",
          params := [ch.name, kickedName], trailing := message }
      let broadcast := ch.SendMessageTo st m
      let stch := Channel.RemoveMemberS st ch kickedClient.nickname
      let st3 := stch.1.SetClient (kickedClient.RemoveChannel stch.2.name)
      let res := Channel.kickLoop st3 cl stch.2 rest message
      (res.1, broadcast ++ res.2)

/-- `Channel.Kick` (part_001 lines 403-427): requires the issuer to be a
member holding channel-operator mode, then runs the per-target loop. -/
def Channel.Kick (st : ServerState) (cl : Client) (ch : Channel)
    (kicked : List String) (message : String) : ServerState × Out :=
  if ¬ ch.HasMember cl.nickname then
    (st,
      [(cl.nickname,
        { pfx := some st.serverName, command := ERR_NOTONCHANNEL,
          params := [cl.nickname, ch.name],
          trailing := "You're not on that channel" })])
  else if ¬ ch.MemberHasMode cl.nickname 'o' then
    (st,
      [(cl.nickname,
        { pfx := some st.serverName, command := ERR_CHANOPRIVSNEEDED,
          params := [cl.nickname, ch.name],
          trailing := "You're not channel operator" })])
  else Channel.kickLoop st cl ch kicked message

/-! ## commands.go handlers -/

/-- Split a character list at the first occurrence of `c` (helper for the
mask-prefix parser). -/
def splitFirst (l : List Char) (c : Char) : List Char × Option (List Char) :=
  match l with
  | [] => ([], none)
  | c1 :: rest =>
    if c1 = c then ([], some rest)
    else
      let (pre, post) := splitFirst rest c
      (c1 :: pre, post)

/-- Modelled from the spec: the external sorcix/irc codec's
`ParsePrefix`/`Prefix.String` pair used by `fillMask` — "a mask is
`nick!user@host` with missing components substituted by `*`".  The raw string
is split at the first `!` and the following `@`; missing or empty components
become `*`. -/
def fillMask (s : String) : String :=
  let cs := s.toList
  let (nameCs, afterBang) := splitFirst cs '!'
  let (name, user, host) :=
    match afterBang with
    | some rest =>
      let (userCs, afterAt) := splitFirst rest '@'
      match afterAt with
      | some hostCs => (String.mk nameCs, String.mk userCs, String.mk hostCs)
      | none => (String.mk nameCs, String.mk rest, "")
    | none =>
      let (nameCs2, afterAt) := splitFirst cs '@'
      match afterAt with
      | some hostCs => (String.mk nameCs2, "", String.mk hostCs)
      | none => (s, "", "")
  let name := if name = "" then "*" else name
  let user := if user = "" then "*" else user
  let host := if host = "" then "*" else host
  name ++ "!" ++ user ++ "@" ++ host

/-- Digits-only parse (helper for `atoiQ`). -/
def digitsToNat (l : List Char) : Option Nat :=
  match l with
  | [] => none
  | _ =>
    if l.all (fun c => c.isDigit) then
      some (l.foldl (fun acc c => acc * 10 + (c.toNat - '0'.toNat)) 0)
    else none

/-- `strconv.Atoi`: optional sign followed by at least one digit. -/
def atoiQ (s : String) : Option Int :=
  match s.toList with
  | '+' :: rest => (digitsToNat rest).map Int.ofNat
  | '-' :: rest => (digitsToNat rest).map (fun n => -(Int.ofNat n))
  | l => (digitsToNat l).map Int.ofNat

/-- The `fullFlag` record of `ChannelModeHandler`: modifier (`+`/`-`), flag
character and the positional parameter consumed for it. -/
structure FullFlag where
  modifier : Char
  mode : Char
  param : String := ""
deriving Repr, DecidableEq

/-- Loop state of `ChannelModeHandler`: the channel being mutated, the queue
of argument-awaiting flags, the effective changes, the argument counter, the
error replies emitted so far and whether the three-argument cutoff fired. -/
structure MLoop where
  ch : Channel
  needsArgs : List FullFlag := []
  changes : List FullFlag := []
  argsCount : Nat := 0
  msgs : Out := []
  stopped : Bool := false
deriving Repr, DecidableEq

/-- The ERR_UNKNOWNMODE reply of `ChannelModeHandler`. -/
def unknownModeMsg (st : ServerState) (cl : Client) (flag : Char)
    (chName : String) : String × Message :=
  (cl.nickname,
    { pfx := some st.serverName, command := ERR_UNKNOWNMODE,
      params := [cl.nickname, String.mk [flag]],
      trailing := "is unknown mode char to me for " ++ chName })

/-- One parameter consumed as the argument of the queued flag
(`ChannelModeHandler`, lines 547-631): pops the queue, enforces the
three-argument cutoff (which clears the queue and breaks the parameter loop),
then applies the o/v/l/k/b/e/I action.  For o/v the source consults
`MemberHasMode(client, ...)` on the **issuer** when deciding whether the
change is effective. -/
def processArgParam (st : ServerState) (cl : Client) (ls : MLoop) (p : String) :
    MLoop :=
  match ls.needsArgs with
  | [] => ls
  | mode0 :: restArgs =>
    let argsCount := ls.argsCount + 1
    if argsCount > 3 then
      { ls with needsArgs := [], argsCount := argsCount, stopped := true }
    else
      let mode : FullFlag := { mode0 with param := p }
      let ls := { ls with needsArgs := restArgs, argsCount := argsCount }
      if mode.mode = 'o' ∨ mode.mode = 'v' then
        match st.GetClientByNick p with
        | none => ls
        | some n =>
          let found := ls.ch.MemberHasMode cl.nickname mode.mode
          if mode.modifier = '+' then
            let ch := ls.ch.AddMemberMode n.nickname mode.mode
            if ¬ found then { ls with ch := ch, changes := ls.changes ++ [mode] }
            else { ls with ch := ch }
          else
            let ch := ls.ch.RemoveMemberMode n.nickname mode.mode
            if found then { ls with ch := ch, changes := ls.changes ++ [mode] }
            else { ls with ch := ch }
      else if mode.mode = 'l' then
        match atoiQ p with
        | some l =>
          { ls with ch := { ls.ch with modes := cmsSetLimit ls.ch.modes l },
                    changes := ls.changes ++ [mode] }
        | none => ls
      else if mode.mode = 'k' then
        { ls with ch := { ls.ch with modes := cmsSetKey ls.ch.modes p },
                  changes := ls.changes ++ [mode] }
      else if mode.mode = 'b' ∨ mode.mode = 'e' ∨ mode.mode = 'I' then
        let mask := fillMask p
        let masks := cmsGetMasks ls.ch.modes mode.mode
        if mask ∈ masks then ls
        else
          { ls with ch := { ls.ch with modes := cmsAddMask ls.ch.modes mode.mode mask },
                    changes := ls.changes ++ [{ mode with param := mask }] }
      else ls

/-- The body of the plain-flag case of the flag-character loop (flags
a i m n p s q r t): the anonymous-channel restriction, then add/remove with
the p/s mutual-exclusion rule. -/
def plainFlagStep (st : ServerState) (cl : Client) (ls : MLoop)
    (modifier : Char) (c : Char) : MLoop :=
  if c = 'a' ∧ (ls.ch.nameStart = '#' ∨ ls.ch.nameStart = '+') then
    { ls with msgs := ls.msgs ++ [unknownModeMsg st cl c ls.ch.name] }
  else if c = 'a' ∧ ls.ch.nameStart = '!' ∧ modifier = '-' then
    { ls with msgs := ls.msgs ++ [unknownModeMsg st cl c ls.ch.name] }
  else
    let found := cmsHasMode ls.ch.modes c
    if modifier = '+' then
      if ¬ found then
        if c = 'p' ∧ cmsHasMode ls.ch.modes 's' then ls
        else
          let chModes :=
            if c = 's' ∧ cmsHasMode ls.ch.modes 'p' then
              cmsRemoveMode ls.ch.modes 'p'
            else ls.ch.modes
          { ls with ch := { ls.ch with modes := cmsAddMode chModes c },
                    changes := ls.changes ++ [{ modifier := modifier, mode := c }] }
      else ls
    else
      if found then
        { ls with ch := { ls.ch with modes := cmsRemoveMode ls.ch.modes c },
                  changes := ls.changes ++ [{ modifier := modifier, mode := c }] }
      else ls

/-- One character of the flag-character loop of `ChannelModeHandler`
(lines 632-696): `+`/`-` switch the modifier; argument-taking flags are
queued (`k` only when adding); plain flags a i m n p s q r t go through
`plainFlagStep`; anything else draws ERR_UNKNOWNMODE.  Returns the updated
loop state and the modifier for the next character. -/
def flagCharStep (st : ServerState) (cl : Client) (ls : MLoop)
    (modifier : Char) (c : Char) : MLoop × Char :=
  if c = '+' then (ls, '+')
  else if c = '-' then (ls, '-')
  else if c = 'v' ∨ c = 'o' ∨ c = 'e' ∨ c = 'I' ∨ c = 'b' ∨ c = 'l' then
    ({ ls with needsArgs := ls.needsArgs ++ [{ modifier := modifier, mode := c }] },
      modifier)
  else if c = 'k' then
    (if modifier = '+' then
        { ls with needsArgs := ls.needsArgs ++ [{ modifier := modifier, mode := c }] }
      else ls, modifier)
  else if c = 'a' ∨ c = 'i' ∨ c = 'm' ∨ c = 'n' ∨ c = 'p' ∨ c = 's' ∨
      c = 'q' ∨ c = 'r' ∨ c = 't' then
    (plainFlagStep st cl ls modifier c, modifier)
  else
    ({ ls with msgs := ls.msgs ++ [unknownModeMsg st cl c ls.ch.name] }, modifier)

/-- The flag-character loop: fold `flagCharStep` over the characters of one
parameter. -/
def processFlagChars (st : ServerState) (cl : Client) (ls : MLoop)
    (modifier : Char) (chars : List Char) : MLoop :=
  match chars with
  | [] => ls
  | c :: rest =>
    let r := flagCharStep st cl ls modifier c
    processFlagChars st cl r.1 r.2 rest

/-- The parameter loop of `ChannelModeHandler`: a parameter is either the
argument of a queued flag or a run of flag characters (each run restarts with
modifier `+`); the three-argument cutoff breaks the loop. -/
def processParams (st : ServerState) (cl : Client) (ls : MLoop)
    (params : List String) : MLoop :=
  match params with
  | [] => ls
  | p :: rest =>
    if ls.needsArgs ≠ [] then
      let ls2 := processArgParam st cl ls p
      if ls2.stopped then ls2 else processParams st cl ls2 rest
    else
      processParams st cl (processFlagChars st cl ls '+' p.toList) rest

/-- The change-compaction fold of `ChannelModeHandler` (lines 755-767):
collects parameters of the changes in order and emits a `+`/`-` sign only when
it differs from the sign of the previous change. -/
def modeChangeFold (changes : List FullFlag) (previousMode : Char) (s : String)
    (ps : List String) : String × List String :=
  match changes with
  | [] => (s, ps)
  | c :: rest =>
    let ps2 := if c.param ≠ "" then ps ++ [c.param] else ps
    let s2 := if c.modifier ≠ previousMode then s.push c.modifier else s
    modeChangeFold rest c.modifier (s2.push c.mode) ps2

/-- The b/e/I list-query replies sent when a MODE command produced no change
but left an argument-less mask flag queued. -/
def maskListReplies (st : ServerState) (cl : Client) (ch : Channel)
    (arg : FullFlag) : Out :=
  if arg.mode = 'b' then
    (cmsGetMasks ch.modes 'b').map (fun mask =>
      (cl.nickname,
        { pfx := some st.serverName, command := RPL_BANLIST,
          params := [cl.nickname, ch.name, mask] : Message })) ++
      [(cl.nickname,
        { pfx := some st.serverName, command := RPL_ENDOFBANLIST,
          params := [cl.nickname, ch.name], trailing := "End of channel ban list" })]
  else if arg.mode = 'e' then
    (cmsGetMasks ch.modes 'e').map (fun mask =>
      (cl.nickname,
        { pfx := some st.serverName, command := RPL_EXCEPTLIST,
          params := [cl.nickname, ch.name, mask] : Message })) ++
      [(cl.nickname,
        { pfx := some st.serverName, command := RPL_ENDOFEXCEPTLIST,
          params := [cl.nickname, ch.name],
          trailing := "End of channel exception list" })]
  else if arg.mode = 'I' then
    (cmsGetMasks ch.modes 'I').map (fun mask =>
      (cl.nickname,
        { pfx := some st.serverName, command := RPL_INVITELIST,
          params := [cl.nickname, ch.name, mask] : Message })) ++
      [(cl.nickname,
        { pfx := some st.serverName, command := RPL_ENDOFINVITELIST,
          params := [cl.nickname, ch.name],
          trailing := "End of channel invite list" })]
  else []

/-- `ChannelModeHandler` (commands.go lines 507-776).  The directory write at
the end models the Go pointer mutations of the channel looked up under
`params[0]` (whose stored key equals the channel's `Name` field). -/
def ChannelModeHandler (st : ServerState) (cl : Client) (msg : Message) :
    ServerState × Out :=
  match msg.params with
  | [] =>
    (st,
      [(cl.nickname,
        { pfx := some st.serverName, command := ERR_NEEDMOREPARAMS,
          trailing := "Not enough parameters" })])
  | channelName :: restParams =>
    match st.GetChannel channelName with
    | none =>
      (st,
        [(cl.nickname,
          { pfx := some st.serverName, command := ERR_NOSUCHCHANNEL,
            trailing := "No such channel" })])
    | some ch =>
      if restParams = [] then
        (st,
          [(cl.nickname,
            { pfx := some st.serverName, command := RPL_CHANNELMODEIS,
              params := [cl.nickname, ch.name, cmsString ch.modes] })])
      else if ¬ ch.MemberHasMode cl.nickname 'o' then
        (st,
          [(cl.nickname,
            { pfx := some st.serverName, command := ERR_CHANOPRIVSNEEDED,
              params := [cl.nickname, ch.name],
              trailing := "You're not channel operator" })])
      else
        let ls := processParams st cl { ch := ch } restParams
        if ls.changes = [] then
          let queryOut :=
            match ls.needsArgs with
            | [] => []
            | arg :: _ => maskListReplies st cl ls.ch arg
          (st.SetChannel ls.ch, ls.msgs ++ queryOut)
        else
          let csp := modeChangeFold ls.changes ' ' "" []
          let m : Message :=
            { pfx := some cl.nickname, command := "MODE",
              params := [ls.ch.name, csp.1] ++ csp.2 }
          (st.SetChannel ls.ch, ls.msgs ++ ls.ch.SendMessageTo st m)

/-- Inner flag loop of `UserModeHandler`: unknown flags and `a` abort the
whole handler with an error; `+o`/`+O` and `-r` are silently skipped. -/
def umodeChars (modifier : Char) (cl : Client) (chars : List Char) :
    Client × Bool :=
  match chars with
  | [] => (cl, false)
  | c :: rest =>
    if c ∉ UserModes ∨ c = 'a' then (cl, true)
    else
      let cl2 :=
        if modifier = '+' then
          if c = 'o' ∨ c = 'O' then cl
          else { cl with userModes := umAddMode cl.userModes c }
        else
          if c = 'r' then cl
          else { cl with userModes := umRemoveMode cl.userModes c }
      umodeChars modifier cl2 rest

/-- Outer parameter loop of `UserModeHandler`.  A parameter must start with
`+` or `-`; otherwise the handler aborts with ERR_UMODEUNKNOWNFLAG.  (Go
indexes `modeFlags[0]` and would panic on an empty parameter; modelled as the
same abort, unreachable in the runs considered here.) -/
def umodeParams (cl : Client) (params : List String) : Client × Bool :=
  match params with
  | [] => (cl, false)
  | p :: rest =>
    match p.toList with
    | [] => (cl, true)
    | m :: flags =>
      if m ≠ '+' ∧ m ≠ '-' then (cl, true)
      else
        let r := umodeChars m cl flags
        if r.2 then (r.1, true) else umodeParams r.1 rest

/-- `UserModeHandler` (commands.go lines 441-503). -/
def UserModeHandler (st : ServerState) (cl : Client) (msg : Message) :
    ServerState × Client × Out :=
  match msg.params with
  | [] =>
    (st, cl,
      [(cl.nickname,
        { pfx := some st.serverName, command := ERR_NEEDMOREPARAMS,
          params := [cl.nickname], trailing := "Not enough parameters" })])
  | username :: rest =>
    if username ≠ cl.nickname then
      (st, cl,
        [(cl.nickname,
          { pfx := some st.serverName, command := ERR_USERSDONTMATCH,
            params := [cl.nickname],
            trailing := "Cannot change mode for other users" })])
    else if rest = [] then
      (st, cl,
        [(cl.nickname,
          { pfx := some st.serverName, command := RPL_UMODEIS,
            params := [cl.nickname, umString cl.userModes] })])
    else
      let r := umodeParams cl rest
      let cl2 := r.1
      if r.2 then
        (st, cl2,
          [(cl2.nickname,
            { pfx := some st.serverName, command := ERR_UMODEUNKNOWNFLAG,
              params := [cl2.nickname], trailing := "Unknown MODE flag" })])
      else
        (st, cl2,
          [(cl2.nickname,
            { pfx := some st.serverName, command := RPL_UMODEIS,
              params := [cl2.nickname, umString cl2.userModes] })])

/-- `ModeHandler` (commands.go lines 422-437): a target naming an existing
channel goes to the channel-mode handler, anything else to the user-mode
handler. -/
def ModeHandler (st : ServerState) (cl : Client) (msg : Message) :
    ServerState × Client × Out :=
  match msg.params with
  | [] =>
    (st, cl,
      [(cl.nickname,
        { pfx := some st.serverName, command := ERR_NEEDMOREPARAMS,
          params := [cl.nickname], trailing := "Not enough parameters" })])
  | id :: _ =>
    match st.GetChannel id with
    | some _ =>
      let r := ChannelModeHandler st cl msg
      (r.1, cl, r.2)
    | none => UserModeHandler st cl msg

/-- `NoticeHandler` (commands.go lines 275-310): despite the NOTICE contract
the source replies ERR_NORECIPIENT / ERR_TOOMANYTARGETS / ERR_NOTEXTTOSEND /
ERR_NOSUCHNICK exactly as `PrivMsgHandler` does. -/
def NoticeHandler (st : ServerState) (cl : Client) (msg : Message) :
    ServerState × Out :=
  match msg.params with
  | [] =>
    (st,
      [(cl.nickname,
        { pfx := some st.serverName, command := ERR_NORECIPIENT,
          params := [cl.nickname], trailing := "No recipient given (PRIVMSG)" })])
  | target :: restP =>
    if restP ≠ [] then
      (st,
        [(cl.nickname,
          { pfx := some st.serverName, command := ERR_TOOMANYTARGETS,
            params := [cl.nickname] })])
    else if msg.trailing = "" then
      (st,
        [(cl.nickname,
          { pfx := some st.serverName, command := ERR_NOTEXTTOSEND,
            params := [cl.nickname], trailing := "No text to send" })])
    else
      match st.GetChannel target with
      | some ch => (st, Channel.NoticeOf st cl ch msg.trailing)
      | none =>
        match st.GetClientByNick target with
        | some cl2 =>
          (st,
            [(cl2.nickname,
              { pfx := some cl.nickname, command := "NOTICE",
                params := [cl2.nickname], trailing := msg.trailing })])
        | none =>
          (st,
            [(cl.nickname,
              { pfx := some st.serverName, command := ERR_NOSUCHNICK,
                params := [cl.nickname],
                trailing := "No recipient given (PRIVMSG)" })])

/-- The per-channel loop of `JoinHandler`: looks the name up, creating and
registering a fresh channel (with the positional key stored in its `Key`
field) when absent, then delegates to `Channel.Join`. -/
def joinLoop (st : ServerState) (cl : Client) (cList : List String)
    (keyList : List String) (i : Nat) : ServerState × Client × Out :=
  match cList with
  | [] => (st, cl, [])
  | cName :: rest =>
    let key := keyList.getD i ""
    let stch :=
      match st.GetChannel cName with
      | some ch => (st, ch)
      | none =>
        let ch : Channel := { name := cName, key := key }
        (st.SetChannel ch, ch)
    let r1 := Channel.Join stch.1 cl stch.2 key
    let r2 := joinLoop r1.1 r1.2.1 rest keyList (i + 1)
    (r2.1, r2.2.1, r1.2.2 ++ r2.2.2)

/-- The `JOIN 0` path: part every channel in the client's index.  (Go ranges
over the client's channel-pointer map; modelled by iterating the names and
looking each up in the directory.) -/
def partAllLoop (st : ServerState) (cl : Client) (names : List String) :
    ServerState × Client × Out :=
  match names with
  | [] => (st, cl, [])
  | nm :: rest =>
    match st.GetChannel nm with
    | none => partAllLoop st cl rest
    | some ch =>
      let r1 := Channel.Part st cl ch ""
      let r2 := partAllLoop r1.1 r1.2.1 rest
      (r2.1, r2.2.1, r1.2.2 ++ r2.2.2)

/-- `JoinHandler` (commands.go lines 164-201).  No registration or
authorisation check appears anywhere in it.  (Go indexes `message.Params[0]`
and would panic on an empty parameter list; modelled as a no-op, unreachable
in the runs considered here.) -/
def JoinHandler (st : ServerState) (cl : Client) (msg : Message) :
    ServerState × Client × Out :=
  match msg.params with
  | [] => (st, cl, [])
  | channelNames :: restP =>
    if channelNames = "0" then partAllLoop st cl cl.channels
    else
      let channelList := splitComma channelNames
      let keys :=
        match restP with
        | [] => ""
        | k :: _ => k
      let keyList := splitComma keys
      joinLoop st cl channelList keyList 0

/-! ## Operation sequences for the empty-channel invariant (claim C7) -/

/-- The `QuitHandler`/disconnect loop: `Channel.Quit` on every channel in the
client's index. -/
def quitAllLoop (st : ServerState) (cl : Client) (names : List String)
    (reason : String) : ServerState :=
  match names with
  | [] => st
  | nm :: rest =>
    match st.GetChannel nm with
    | none => quitAllLoop st cl rest reason
    | some ch => quitAllLoop (Channel.QuitOf st cl ch reason).1 cl rest reason

/-- A membership-removing operation: PART of one channel, QUIT (all joined
channels), or KICK of a target list. -/
inductive ChanOp where
  | part (nick chName reason : String)
  | quitAll (nick reason : String)
  | kick (nick chName : String) (targets : List String) (comment : String)
deriving Repr, DecidableEq

/-- Apply one operation to the server state (acting client and channel
resolved through the directory; unknown names are no-ops at this level). -/
def applyChanOp (st : ServerState) (op : ChanOp) : ServerState :=
  match op with
  | ChanOp.part nick chName reason =>
    match st.GetClientByNick nick, st.GetChannel chName with
    | some cl, some ch => (Channel.Part st cl ch reason).1
    | _, _ => st
  | ChanOp.quitAll nick reason =>
    match st.GetClientByNick nick with
    | some cl => quitAllLoop st cl cl.channels reason
    | none => st
  | ChanOp.kick nick chName targets comment =>
    match st.GetClientByNick nick, st.GetChannel chName with
    | some cl, some ch => (Channel.Kick st cl ch targets comment).1
    | _, _ => st

/-- Apply a sequence of operations. -/
def applyChanOps (st : ServerState) (ops : List ChanOp) : ServerState :=
  ops.foldl applyChanOp st

/-! ## Specification-side definitions -/

/-- Mutual exclusion of the private (`p`) and secret (`s`) channel flags. -/
def psExcl (ms : CModeSet) : Prop :=
  ¬ (cmsHasMode ms 'p' = true ∧ cmsHasMode ms 's' = true)

instance (ms : CModeSet) : Decidable (psExcl ms) := by
  unfold psExcl; infer_instance

/-- Every channel stored in the directory satisfies p/s mutual exclusion. -/
def stPsExcl (st : ServerState) : Prop :=
  ∀ nm ch, lookupA st.channels nm = some ch → psExcl ch.modes

/-- Directory well-formedness: every stored channel is keyed by its own name
and has at least one member. -/
def dirInv (st : ServerState) : Prop :=
  ∀ nm ch, lookupA st.channels nm = some ch → ch.name = nm ∧ ch.members ≠ []

/-- The changed flags grouped into runs of consecutive equal signs
(claim C5's reading of the compaction). -/
def modeRuns (l : List FullFlag) : List (Char × List Char) :=
  match l with
  | [] => []
  | c :: rest =>
    match modeRuns rest with
    | [] => [(c.modifier, [c.mode])]
    | (m, ms) :: rs =>
      if c.modifier = m then (c.modifier, c.mode :: ms) :: rs
      else (c.modifier, [c.mode]) :: (m, ms) :: rs

/-- Concatenation of a list of strings. -/
def strConcat (l : List String) : String :=
  match l with
  | [] => ""
  | s :: rest => s ++ strConcat rest

/-- Claim-side compaction: each run of consecutive changes sharing a sign is
rendered as the sign followed by its flag characters. -/
def specCompact (l : List FullFlag) : String :=
  strConcat ((modeRuns l).map (fun r => String.mk (r.1 :: r.2)))

/-- The parameters of the parameterised changed flags, in change order. -/
def changeParams (l : List FullFlag) : List String :=
  l.filterMap (fun c => if c.param ≠ "" then some c.param else none)

/-! ## Basic lemmas about the map embeddings -/

theorem lookupA_setA {α : Type} (l : List (String × α)) (k k2 : String) (v : α) :
    lookupA (setA l k v) k2 = if k = k2 then some v else lookupA l k2 := by
  induction l with
  | nil => simp [setA, lookupA]
  | cons p rest ih =>
    obtain ⟨k1, w⟩ := p
    by_cases h1 : k1 = k
    · subst h1
      by_cases h2 : k1 = k2 <;> simp [setA, lookupA, h2]
    · have h1s : k ≠ k1 := fun h => h1 h.symm
      by_cases h2 : k1 = k2
      · subst h2
        simp [setA, lookupA, h1, h1s, ih]
      · simp [setA, lookupA, h1, h2, ih]

theorem lookupA_eraseA {α : Type} (l : List (String × α)) (k k2 : String) :
    lookupA (eraseA l k) k2 = if k = k2 then none else lookupA l k2 := by
  induction l with
  | nil => simp [eraseA, lookupA]
  | cons p rest ih =>
    obtain ⟨k1, w⟩ := p
    by_cases h1 : k1 = k
    · subst h1
      by_cases h2 : k1 = k2
      · subst h2
        simp [eraseA, lookupA, ih]
      · simp [eraseA, lookupA, h2, ih]
    · have h1s : k ≠ k1 := fun h => h1 h.symm
      by_cases h2 : k1 = k2
      · subst h2
        simp [eraseA, lookupA, h1, h1s, ih]
      · simp [eraseA, lookupA, h1, h2, ih]

theorem cmsLookup_cmsSet (ms : CModeSet) (m m2 : Char) (v : Option ModeValue) :
    cmsLookup (cmsSet ms m v) m2 = if m = m2 then some v else cmsLookup ms m2 := by
  induction ms with
  | nil => simp [cmsSet, cmsLookup]
  | cons p rest ih =>
    obtain ⟨k, w⟩ := p
    by_cases h1 : k = m
    · subst h1
      by_cases h2 : k = m2 <;> simp [cmsSet, cmsLookup, h2]
    · have h1s : m ≠ k := fun h => h1 h.symm
      by_cases h2 : k = m2
      · subst h2
        simp [cmsSet, cmsLookup, h1, h1s, ih]
      · simp [cmsSet, cmsLookup, h1, h2, ih]

theorem cmsLookup_cmsErase (ms : CModeSet) (m m2 : Char) :
    cmsLookup (cmsErase ms m) m2 = if m = m2 then none else cmsLookup ms m2 := by
  induction ms with
  | nil => simp [cmsErase, cmsLookup]
  | cons p rest ih =>
    obtain ⟨k, w⟩ := p
    by_cases h1 : k = m
    · subst h1
      by_cases h2 : k = m2
      · subst h2
        simp [cmsErase, cmsLookup, ih]
      · simp [cmsErase, cmsLookup, h2, ih]
    · have h1s : m ≠ k := fun h => h1 h.symm
      by_cases h2 : k = m2
      · subst h2
        simp [cmsErase, cmsLookup, h1, h1s, ih]
      · simp [cmsErase, cmsLookup, h1, h2, ih]

theorem cmsHasMode_cmsSet (ms : CModeSet) (m m2 : Char) (v : Option ModeValue) :
    cmsHasMode (cmsSet ms m v) m2 = if m = m2 then true else cmsHasMode ms m2 := by
  by_cases h : m = m2 <;> simp [cmsHasMode, cmsLookup_cmsSet, h]

theorem cmsHasMode_cmsErase (ms : CModeSet) (m m2 : Char) :
    cmsHasMode (cmsErase ms m) m2 = if m = m2 then false else cmsHasMode ms m2 := by
  by_cases h : m = m2 <;> simp [cmsHasMode, cmsLookup_cmsErase, h]

/-! ## Claim theorems: direct evaluations and simple branch facts -/

/-- C9.  Join is idempotent: a repeated `Channel.Join` by an existing member
returns immediately — the directory, the channel (with its member and
member-mode sets) and the client are unchanged and no message at all (JOIN
broadcast, topic reply, NAMES reply) is emitted. -/
theorem c9_join_idempotent (st : ServerState) (cl : Client) (ch : Channel)
    (key : String) (h : ch.HasMember cl.nickname = true) :
    Channel.Join st cl ch key = (st, cl, []) := by
  simp [Channel.Join, h]

/-- Witness for C9 at a concrete member. -/
theorem c9_join_idempotent_witness :
    Channel.Join { serverName := "srv" } { nickname := "ann" }
        { name := "#w", members := [("ann", [('o', none)])] } "" =
      ({ serverName := "srv" }, { nickname := "ann" }, []) :=
  c9_join_idempotent { serverName := "srv" } { nickname := "ann" }
    { name := "#w", members := [("ann", [('o', none)])] } "" (by decide)

/-- C10.  When the first MODE parameter names no existing channel, the command
is handled as a user-mode command; if that parameter also differs from the
sender's nickname the only reply is ERR_USERSDONTMATCH — in particular no
ERR_NOSUCHCHANNEL is ever sent. -/
theorem c10_mode_unknown_target_usersdontmatch (st : ServerState) (cl : Client)
    (p : String) (rest : List String) (t : String) (pf : Option String)
    (hch : st.GetChannel p = none) (hnick : p ≠ cl.nickname) :
    (ModeHandler st cl { pfx := pf, command := "MODE", params := p :: rest, trailing := t }).2.2 =
      [(cl.nickname, { pfx := some st.serverName, command := ERR_USERSDONTMATCH, params := [cl.nickname], trailing := "Cannot change mode for other users" })] ∧
    ∀ pr ∈ (ModeHandler st cl { pfx := pf, command := "MODE", params := p :: rest, trailing := t }).2.2,
      pr.2.command ≠ ERR_NOSUCHCHANNEL := by
  have h1 : (ModeHandler st cl { pfx := pf, command := "MODE", params := p :: rest, trailing := t }).2.2 =
      [(cl.nickname, { pfx := some st.serverName, command := ERR_USERSDONTMATCH, params := [cl.nickname], trailing := "Cannot change mode for other users" })] := by
    simp [ModeHandler, hch, UserModeHandler, hnick]
  refine ⟨h1, ?_⟩
  intro pr hpr
  rw [h1] at hpr
  simp at hpr
  subst hpr
  simp [ERR_USERSDONTMATCH, ERR_NOSUCHCHANNEL]

/-- Witness for C10 at a concrete state: nonexistent channel name `#nope`. -/
theorem c10_mode_unknown_target_witness :
    ({ serverName := "srv" } : ServerState).GetChannel "#nope" = none ∧
      ("#nope" : String) ≠ "ann" ∧
      (ModeHandler { serverName := "srv" } { nickname := "ann" } { command := "MODE", params := ["#nope"] }).2.2 =
        [("ann", { pfx := some "srv", command := ERR_USERSDONTMATCH, params := ["ann"], trailing := "Cannot change mode for other users" })] :=
  ⟨by decide, by decide,
    (c10_mode_unknown_target_usersdontmatch { serverName := "srv" }
      { nickname := "ann" } "#nope" [] "" none (by decide) (by decide)).1⟩

/-! ## Concrete fixtures for the code-bug evaluations -/

/-- A freshly connected client: no nickname, no username, not registered. -/
def unregClient : Client := {}

/-- A server with channel `#f` carrying limit mode 1 and one member. -/
def stFull : ServerState :=
  { serverName := "srv",
    clientsByNick :=
      [("alice", { nickname := "alice", registered := true, channels := ["#f"] }),
       ("bob", { nickname := "bob", registered := true })],
    channels :=
      [("#f", { name := "#f", modes := [('l', some (ModeValue.int 1))], members := [("alice", [('o', none)])] })] }

/-- A registered client `bob` who is not in any channel. -/
def bobClient : Client := { nickname := "bob", registered := true }

/-- A server with channel `#c` (members `op` with operator mode, `alice`) and a
connected client `bob` who is not a member of `#c`. -/
def stKick : ServerState :=
  { serverName := "srv",
    clientsByNick :=
      [("op", { nickname := "op", registered := true, channels := ["#c"] }),
       ("alice", { nickname := "alice", registered := true, channels := ["#c"] }),
       ("bob", { nickname := "bob", registered := true })],
    channels :=
      [("#c", { name := "#c", members := [("op", [('o', none)]), ("alice", [])] })] }

/-- The operator member of `#c` in `stKick`. -/
def opClient : Client := { nickname := "op", registered := true, channels := ["#c"] }

/-- The `#c` channel value of `stKick`. -/
def chKick : Channel :=
  { name := "#c", members := [("op", [('o', none)]), ("alice", [])] }

/-- A server with an `&`-prefixed channel `&h` whose only member `op` holds
channel-operator mode. -/
def stAmp : ServerState :=
  { serverName := "srv",
    clientsByNick := [("op", { nickname := "op", registered := true, channels := ["&h"] })],
    channels := [("&h", { name := "&h", members := [("op", [('o', none)])] })] }

/-- C1.  The handlers perform no registration gating: a client that is not
registered (fresh connection, empty nickname and username) issuing
`JOIN #x` is *not* rejected — the channel is created in the directory with the
unregistered client as its (operator) member, mutating server, channel and
directory state, and no error numeric is returned. -/
theorem c1_join_unregistered_mutates :
    unregClient.registered = false ∧
    (JoinHandler { serverName := "srv" } unregClient { command := "JOIN", params := ["#x"] }).1.GetChannel "#x" =
      some { name := "#x", members := [("", [('o', none)])] } ∧
    (JoinHandler { serverName := "srv" } unregClient { command := "JOIN", params := ["#x"] }).2.1.channels = ["#x"] := by
  refine ⟨rfl, ?_, ?_⟩ <;> decide

/-- C2.  `NoticeHandler` *does* send an automatic reply: a NOTICE with no
parameters draws ERR_NORECIPIENT back to the sender (likewise
ERR_TOOMANYTARGETS, ERR_NOTEXTTOSEND and ERR_NOSUCHNICK on the other
malformed inputs), contradicting the mandate that NOTICE never elicits an
automatic reply. -/
theorem c2_notice_emits_error_reply :
    (NoticeHandler { serverName := "srv" } { nickname := "ann", registered := true } { command := "NOTICE" }).2 =
      [("ann", { pfx := some "srv", command := ERR_NORECIPIENT, params := ["ann"], trailing := "No recipient given (PRIVMSG)" })] ∧
    (NoticeHandler { serverName := "srv" } { nickname := "ann", registered := true } { command := "NOTICE" }).2 ≠ [] := by
  refine ⟨rfl, ?_⟩
  decide

/-- C3.  The channel-limit check on JOIN emits ERR_CHANNELISFULL but does not
abort: joining `#f` (limit 1, already 1 member) sends the error *and* still
adds `bob` to the member set. -/
theorem c3_full_channel_join_not_aborted :
    cmsHasMode ((stFull.GetChannel "#f").map Channel.modes |>.getD []) 'l' = true ∧
    ((stFull.GetChannel "#f").map (fun ch => decide (cmsGetLimit ch.modes ≤ ch.GetMemberCount))) = some true ∧
    (("bob", { pfx := some "srv", command := ERR_CHANNELISFULL, params := ["bob", "#f"], trailing := "Cannot join channel (+l)" }) : String × Message) ∈
      (JoinHandler stFull bobClient { command := "JOIN", params := ["#f"] }).2.2 ∧
    ((JoinHandler stFull bobClient { command := "JOIN", params := ["#f"] }).1.GetChannel "#f").map (fun ch => ch.HasMember "bob") = some true := by
  refine ⟨?_, ?_, ?_, ?_⟩ <;> decide

/-- C6.  `Channel.Kick` resolves targets in the server-wide nickname
directory, not in the channel member map: kicking `bob`, who is connected but
*not* a member of `#c`, broadcasts KICK to the members and draws no
ERR_USERNOTINCHANNEL — whereas the claim requires ERR_USERNOTINCHANNEL and no
broadcast for a non-member target. -/
theorem c6_kick_nonmember_broadcasts :
    chKick.HasMember "bob" = false ∧
    (Channel.Kick stKick opClient chKick ["bob"] "gone").2 =
      [("op", { pfx := some "op", command := "KICK", params := ["#c", "bob"], trailing := "gone" }),
       ("alice", { pfx := some "op", command := "KICK", params := ["#c", "bob"], trailing := "gone" })] ∧
    ∀ pr ∈ (Channel.Kick stKick opClient chKick ["bob"] "gone").2,
      pr.2.command ≠ ERR_USERNOTINCHANNEL := by
  refine ⟨?_, ?_, ?_⟩ <;> decide

/-- C8 counterexample.  The claim says the anonymous flag `a` is settable only
on `!`-channels, but the source's name switch does not cover `&`-channels:
`MODE &h +a` issued by the operator sets the flag on `&h` and draws no
ERR_UNKNOWNMODE. -/
theorem c8_counterexample_amp_channel :
    ((ChannelModeHandler stAmp { nickname := "op", registered := true, channels := ["&h"] } { command := "MODE", params := ["&h", "+a"] }).1.GetChannel "&h").map
        (fun ch => cmsHasMode ch.modes 'a') = some true ∧
    ∀ pr ∈ (ChannelModeHandler stAmp { nickname := "op", registered := true, channels := ["&h"] } { command := "MODE", params := ["&h", "+a"] }).2,
      pr.2.command ≠ ERR_UNKNOWNMODE := by
  refine ⟨?_, ?_⟩ <;> decide

/-! ## C7: the empty-channel invariant -/

theorem dirInv_SetChannel_nonempty (st : ServerState) (ch : Channel)
    (h : dirInv st) (hm : ch.members ≠ []) : dirInv (st.SetChannel ch) := by
  intro nm ch2 hl
  rw [ServerState.SetChannel] at hl
  simp only at hl
  rw [lookupA_setA] at hl
  by_cases he : ch.name = nm
  · rw [if_pos he] at hl
    cases hl
    exact ⟨he, hm⟩
  · rw [if_neg he] at hl
    exact h nm ch2 hl

theorem dirInv_RemoveChannel (st : ServerState) (nm0 : String)
    (h : dirInv st) : dirInv (st.RemoveChannel nm0) := by
  intro nm ch2 hl
  rw [ServerState.RemoveChannel] at hl
  simp only at hl
  rw [lookupA_eraseA] at hl
  by_cases he : nm0 = nm
  · rw [if_pos he] at hl
    cases hl
  · rw [if_neg he] at hl
    exact h nm ch2 hl

theorem dirInv_RemoveMemberS (st : ServerState) (ch : Channel) (nick : String)
    (h : dirInv st) : dirInv (Channel.RemoveMemberS st ch nick).1 := by
  unfold Channel.RemoveMemberS
  dsimp only
  split
  · exact dirInv_RemoveChannel st _ h
  · next hne => exact dirInv_SetChannel_nonempty st _ h hne

theorem dirInv_SetClient (st : ServerState) (cl : Client)
    (h : dirInv st) : dirInv (st.SetClient cl) := by
  intro nm ch2 hl
  exact h nm ch2 hl

theorem dirInv_Part (st : ServerState) (cl : Client) (ch : Channel)
    (reason : String) (h : dirInv st) : dirInv (Channel.Part st cl ch reason).1 := by
  unfold Channel.Part
  dsimp only
  split
  · exact h
  · exact dirInv_RemoveMemberS st ch cl.nickname h

theorem dirInv_QuitOf (st : ServerState) (cl : Client) (ch : Channel)
    (reason : String) (h : dirInv st) : dirInv (Channel.QuitOf st cl ch reason).1 := by
  unfold Channel.QuitOf
  dsimp only
  split
  · exact h
  · exact dirInv_RemoveMemberS st ch cl.nickname h

theorem dirInv_kickLoop (kicked : List String) (st : ServerState) (cl : Client)
    (ch : Channel) (message : String) (h : dirInv st) :
    dirInv (Channel.kickLoop st cl ch kicked message).1 := by
  induction kicked generalizing st ch with
  | nil => exact h
  | cons kickedName rest ih =>
    unfold Channel.kickLoop
    cases st.GetClientByNick kickedName with
    | none => exact h
    | some kc =>
      exact ih _ _ (dirInv_SetClient _ _ (dirInv_RemoveMemberS st ch kc.nickname h))

theorem dirInv_Kick (st : ServerState) (cl : Client) (ch : Channel)
    (kicked : List String) (message : String) (h : dirInv st) :
    dirInv (Channel.Kick st cl ch kicked message).1 := by
  unfold Channel.Kick
  split
  · exact h
  · split
    · exact h
    · exact dirInv_kickLoop kicked st cl ch message h

theorem dirInv_quitAllLoop (names : List String) (st : ServerState) (cl : Client)
    (reason : String) (h : dirInv st) : dirInv (quitAllLoop st cl names reason) := by
  induction names generalizing st with
  | nil => exact h
  | cons nm rest ih =>
    unfold quitAllLoop
    cases st.GetChannel nm with
    | none => exact ih st h
    | some ch =>
      dsimp only
      exact ih _ (dirInv_QuitOf st cl ch reason h)

theorem dirInv_applyChanOp (st : ServerState) (op : ChanOp) (h : dirInv st) :
    dirInv (applyChanOp st op) := by
  cases op with
  | part nick chName reason =>
    simp only [applyChanOp]
    cases st.GetClientByNick nick with
    | none =>
      cases st.GetChannel chName with
      | none => exact h
      | some ch => exact h
    | some cl =>
      cases st.GetChannel chName with
      | none => exact h
      | some ch => exact dirInv_Part st cl ch reason h
  | quitAll nick reason =>
    simp only [applyChanOp]
    cases st.GetClientByNick nick with
    | none => exact h
    | some cl => exact dirInv_quitAllLoop cl.channels st cl reason h
  | kick nick chName targets comment =>
    simp only [applyChanOp]
    cases st.GetClientByNick nick with
    | none =>
      cases st.GetChannel chName with
      | none => exact h
      | some ch => exact h
    | some cl =>
      cases st.GetChannel chName with
      | none => exact h
      | some ch => exact dirInv_Kick st cl ch targets comment h

/-- C7.  Starting from a well-formed directory (every stored channel is keyed
by its name and nonempty), any sequence of Part, Quit and Kick operations
leaves only nonempty channels in the directory — so once the last member of a
channel is removed, `GetChannel` on its name returns not-present. -/
theorem c7_emptied_channel_removed (st : ServerState) (ops : List ChanOp)
    (h : dirInv st) :
    ∀ nm ch, (applyChanOps st ops).GetChannel nm = some ch → ch.members ≠ [] := by
  have hinv : dirInv (applyChanOps st ops) := by
    unfold applyChanOps
    induction ops generalizing st with
    | nil => exact h
    | cons op rest ih => exact ih (applyChanOp st op) (dirInv_applyChanOp st op h)
  intro nm ch hl
  exact (hinv nm ch hl).2

/-- A first-match property of association lists, used to check `dirInv` on
concrete states. -/
theorem lookupA_forall {α : Type} (l : List (String × α)) (P : String → α → Prop)
    (h : ∀ p ∈ l, P p.1 p.2) : ∀ k v, lookupA l k = some v → P k v := by
  induction l with
  | nil =>
    intro k v hl
    cases hl
  | cons p rest ih =>
    obtain ⟨k1, w⟩ := p
    intro k v
    simp only [lookupA]
    split
    · next heq =>
      intro hl
      cases hl
      exact heq ▸ h (k1, w) (List.mem_cons_self _ _)
    · intro hl
      exact ih (fun q hq => h q (List.mem_cons_of_mem _ hq)) k v hl

/-- `dirInv` follows from the corresponding check on every stored entry. -/
theorem dirInv_of_forall (st : ServerState)
    (h : ∀ p ∈ st.channels, p.2.name = p.1 ∧ p.2.members ≠ []) : dirInv st :=
  fun nm ch hl =>
    lookupA_forall st.channels (fun k c => c.name = k ∧ c.members ≠ []) h nm ch hl

/-- Witness for C7: `bob` is kicked then `ann` parts; every channel left in
the directory is nonempty (here: the emptied `#w` is gone). -/
theorem c7_emptied_channel_removed_witness :
    dirInv { serverName := "srv", clientsByNick := [("ann", { nickname := "ann", channels := ["#w"] }), ("bob", { nickname := "bob", channels := ["#w"] })], channels := [("#w", { name := "#w", members := [("ann", [('o', none)]), ("bob", [])] })] } ∧
    ∀ nm ch,
      (applyChanOps { serverName := "srv", clientsByNick := [("ann", { nickname := "ann", channels := ["#w"] }), ("bob", { nickname := "bob", channels := ["#w"] })], channels := [("#w", { name := "#w", members := [("ann", [('o', none)]), ("bob", [])] })] }
          [ChanOp.kick "ann" "#w" ["bob"] "out", ChanOp.part "ann" "#w" "bye"]).GetChannel nm = some ch →
        ch.members ≠ [] :=
  ⟨dirInv_of_forall _ (by decide),
    c7_emptied_channel_removed _ _ (dirInv_of_forall _ (by decide))⟩

/-! ## C4: p/s mutual exclusion -/

theorem psExcl_cmsSet (ms : CModeSet) (m : Char) (v : Option ModeValue)
    (h : psExcl ms) (hp : m ≠ 'p') (hs : m ≠ 's') : psExcl (cmsSet ms m v) := by
  unfold psExcl at *
  rw [cmsHasMode_cmsSet, cmsHasMode_cmsSet, if_neg hp, if_neg hs]
  exact h

theorem psExcl_cmsErase (ms : CModeSet) (m : Char) (h : psExcl ms) :
    psExcl (cmsErase ms m) := by
  unfold psExcl at *
  rw [cmsHasMode_cmsErase, cmsHasMode_cmsErase]
  by_cases hp : m = 'p'
  · rw [if_pos hp]
    simp
  · rw [if_neg hp]
    by_cases hs : m = 's'
    · rw [if_pos hs]
      simp
    · rw [if_neg hs]
      exact h

theorem psExcl_addP (ms : CModeSet) (hs : cmsHasMode ms 's' = false) :
    psExcl (cmsAddMode ms 'p') := by
  unfold psExcl cmsAddMode
  rw [cmsHasMode_cmsSet, cmsHasMode_cmsSet, if_pos rfl, if_neg (by decide : ('p' : Char) ≠ 's')]
  simp [hs]

theorem psExcl_addS (ms : CModeSet) (hp : cmsHasMode ms 'p' = false) :
    psExcl (cmsAddMode ms 's') := by
  unfold psExcl cmsAddMode
  rw [cmsHasMode_cmsSet, cmsHasMode_cmsSet, if_pos rfl, if_neg (by decide : ('s' : Char) ≠ 'p')]
  simp [hp]

theorem psExcl_addS_removeP (ms : CModeSet) :
    psExcl (cmsAddMode (cmsRemoveMode ms 'p') 's') := by
  unfold psExcl cmsAddMode cmsRemoveMode
  rw [cmsHasMode_cmsSet, cmsHasMode_cmsSet, if_pos rfl,
    if_neg (by decide : ('s' : Char) ≠ 'p'), cmsHasMode_cmsErase, if_pos rfl]
  simp

theorem modes_AddMemberMode (ch : Channel) (n : String) (m : Char) :
    (ch.AddMemberMode n m).modes = ch.modes := by
  unfold Channel.AddMemberMode
  cases lookupA ch.members n <;> rfl

theorem modes_RemoveMemberMode (ch : Channel) (n : String) (m : Char) :
    (ch.RemoveMemberMode n m).modes = ch.modes := by
  unfold Channel.RemoveMemberMode
  cases lookupA ch.members n <;> rfl

theorem psExcl_processArgParam (st : ServerState) (cl : Client) (ls : MLoop)
    (p : String) (h : psExcl ls.ch.modes) :
    psExcl (processArgParam st cl ls p).ch.modes := by
  unfold processArgParam
  cases ls.needsArgs with
  | nil => exact h
  | cons mode0 restArgs =>
    dsimp only
    split
    · exact h
    · split
      · split
        · exact h
        · split
          · split <;> (rw [modes_AddMemberMode]; exact h)
          · split <;> (rw [modes_RemoveMemberMode]; exact h)
      · split
        · split
          · first
            | exact psExcl_cmsSet _ _ _ h (by decide) (by decide)
            | exact h
          · first
            | exact psExcl_cmsSet _ _ _ h (by decide) (by decide)
            | exact h
        · split
          · exact psExcl_cmsSet _ _ _ h (by decide) (by decide)
          · split
            · next hbei =>
              split
              · exact h
              · rcases hbei with h1 | h1 | h1 <;>
                  (rw [h1]; exact psExcl_cmsSet _ _ _ h (by decide) (by decide))
            · exact h

theorem psExcl_plainFlagStep (st : ServerState) (cl : Client) (ls : MLoop)
    (modifier c : Char) (h : psExcl ls.ch.modes) :
    psExcl (plainFlagStep st cl ls modifier c).ch.modes := by
  by_cases h1 : c = 'a' ∧ (ls.ch.nameStart = '#' ∨ ls.ch.nameStart = '+')
  · simp only [plainFlagStep, if_pos h1]
    exact h
  · by_cases h2 : c = 'a' ∧ ls.ch.nameStart = '!' ∧ modifier = '-'
    · simp only [plainFlagStep, if_neg h1, if_pos h2]
      exact h
    · by_cases h3 : modifier = '+'
      · by_cases h4 : cmsHasMode ls.ch.modes c = true
        · simp [plainFlagStep, h1, h2, h3, h4]
          exact h
        · by_cases h5 : c = 'p' ∧ cmsHasMode ls.ch.modes 's' = true
          · simp [plainFlagStep, h1, h2, h3, h4, h5]
            exact h
          · by_cases h6 : c = 's' ∧ cmsHasMode ls.ch.modes 'p' = true
            · obtain ⟨hc, hp⟩ := h6
              subst hc
              simp [plainFlagStep, h2, h3, h4, hp]
              exact psExcl_addS_removeP _
            · by_cases hcp : c = 'p'
              · subst hcp
                have hs : cmsHasMode ls.ch.modes 's' = false := by
                  cases hcs : cmsHasMode ls.ch.modes 's'
                  · rfl
                  · exact absurd ⟨rfl, hcs⟩ h5
                simp [plainFlagStep, h3, h4, hs]
                exact psExcl_addP _ (by simp [hs])
              · by_cases hcs : c = 's'
                · subst hcs
                  have hp : cmsHasMode ls.ch.modes 'p' = false := by
                    cases hcp2 : cmsHasMode ls.ch.modes 'p'
                    · rfl
                    · exact absurd ⟨rfl, hcp2⟩ h6
                  simp [plainFlagStep, h3, h4, hp]
                  exact psExcl_addS _ (by simp [hp])
                · simp [plainFlagStep, h1, h2, h3, h4, h5, h6, hcp, hcs]
                  exact psExcl_cmsSet _ _ _ h hcp hcs
      · by_cases h4 : cmsHasMode ls.ch.modes c = true
        · simp [plainFlagStep, h1, h2, h3, h4]
          exact psExcl_cmsErase _ _ h
        · simp [plainFlagStep, h1, h2, h3, h4]
          exact h

theorem psExcl_flagCharStep (st : ServerState) (cl : Client) (ls : MLoop)
    (modifier c : Char) (h : psExcl ls.ch.modes) :
    psExcl (flagCharStep st cl ls modifier c).1.ch.modes := by
  unfold flagCharStep
  split
  · exact h
  · split
    · exact h
    · split
      · exact h
      · split
        · split <;> exact h
        · split
          · exact psExcl_plainFlagStep st cl ls modifier c h
          · exact h

theorem psExcl_processFlagChars (st : ServerState) (cl : Client)
    (chars : List Char) :
    ∀ ls modifier, psExcl ls.ch.modes →
      psExcl (processFlagChars st cl ls modifier chars).ch.modes := by
  induction chars with
  | nil =>
    intro ls modifier h
    exact h
  | cons c rest ih =>
    intro ls modifier h
    exact ih _ _ (psExcl_flagCharStep st cl ls modifier c h)

theorem psExcl_processParams (st : ServerState) (cl : Client)
    (params : List String) :
    ∀ ls, psExcl ls.ch.modes → psExcl (processParams st cl ls params).ch.modes := by
  induction params with
  | nil =>
    intro ls h
    exact h
  | cons p rest ih =>
    intro ls h
    simp only [processParams]
    split
    · split
      · exact psExcl_processArgParam st cl ls p h
      · exact ih _ (psExcl_processArgParam st cl ls p h)
    · exact ih _ (psExcl_processFlagChars st cl _ _ _ h)

theorem stPsExcl_SetChannel (st : ServerState) (ch : Channel)
    (h : stPsExcl st) (hch : psExcl ch.modes) : stPsExcl (st.SetChannel ch) := by
  intro nm ch2 hl
  rw [ServerState.SetChannel] at hl
  simp only at hl
  rw [lookupA_setA] at hl
  by_cases he : ch.name = nm
  · rw [if_pos he] at hl
    cases hl
    exact hch
  · rw [if_neg he] at hl
    exact h nm ch2 hl

theorem stPsExcl_ChannelModeHandler (st : ServerState) (cl : Client)
    (msg : Message) (h : stPsExcl st) :
    stPsExcl (ChannelModeHandler st cl msg).1 := by
  unfold ChannelModeHandler
  cases hpar : msg.params with
  | nil => exact h
  | cons channelName restParams =>
    dsimp only
    cases hch : st.GetChannel channelName with
    | none => exact h
    | some ch =>
      have hps : psExcl ch.modes := h channelName ch hch
      dsimp only
      split
      · exact h
      · split
        · exact h
        · split
          · exact stPsExcl_SetChannel _ _ h
              (psExcl_processParams st cl restParams { ch := ch } hps)
          · exact stPsExcl_SetChannel _ _ h
              (psExcl_processParams st cl restParams { ch := ch } hps)

/-- C4.  (i) Processing any channel MODE command preserves the invariant that
no stored channel carries `p` and `s` together.  (ii) A successful `+s` on a
channel (operator issuer, `s` not yet set) leaves the channel with `s` set and
`p` cleared, whatever `p` was before.  (iii) A successful `+p` (operator
issuer, `p` and `s` not set) leaves `p` set and `s` absent. -/
theorem c4_private_secret_mutual_exclusion :
    (∀ st cl msg, stPsExcl st → stPsExcl (ChannelModeHandler st cl msg).1) ∧
    (∀ st cl ch nm pf t, st.GetChannel nm = some ch → ch.name = nm →
      ch.MemberHasMode cl.nickname 'o' = true →
      cmsHasMode ch.modes 's' = false →
      ((ChannelModeHandler st cl { pfx := pf, command := "MODE", params := [nm, "+s"], trailing := t }).1.GetChannel nm).map
          (fun c2 => (cmsHasMode c2.modes 's', cmsHasMode c2.modes 'p')) =
        some (true, false)) ∧
    (∀ st cl ch nm pf t, st.GetChannel nm = some ch → ch.name = nm →
      ch.MemberHasMode cl.nickname 'o' = true →
      cmsHasMode ch.modes 'p' = false → cmsHasMode ch.modes 's' = false →
      ((ChannelModeHandler st cl { pfx := pf, command := "MODE", params := [nm, "+p"], trailing := t }).1.GetChannel nm).map
          (fun c2 => (cmsHasMode c2.modes 'p', cmsHasMode c2.modes 's')) =
        some (true, false)) := by
  refine ⟨fun st cl msg h => stPsExcl_ChannelModeHandler st cl msg h, ?_, ?_⟩
  · intro st cl ch nm pf t hch hnm hmem hs
    have hch2 : lookupA st.channels nm = some ch := hch
    by_cases hp : cmsHasMode ch.modes 'p' = true
    · simp [ChannelModeHandler, hch, hch2, hmem, processParams, processFlagChars,
        flagCharStep, plainFlagStep, hs, hp, ServerState.SetChannel,
        ServerState.GetChannel, lookupA_setA, hnm, cmsAddMode, cmsRemoveMode,
        cmsHasMode_cmsSet, cmsHasMode_cmsErase,
        (show ("+s").toList = ['+', 's'] from rfl)]
    · simp [ChannelModeHandler, hch, hch2, hmem, processParams, processFlagChars,
        flagCharStep, plainFlagStep, hs, hp, ServerState.SetChannel,
        ServerState.GetChannel, lookupA_setA, hnm, cmsAddMode, cmsRemoveMode,
        cmsHasMode_cmsSet, cmsHasMode_cmsErase,
        (show ("+s").toList = ['+', 's'] from rfl)]
  · intro st cl ch nm pf t hch hnm hmem hp hs
    have hch2 : lookupA st.channels nm = some ch := hch
    simp [ChannelModeHandler, hch, hch2, hmem, processParams, processFlagChars,
      flagCharStep, plainFlagStep, hs, hp, ServerState.SetChannel,
      ServerState.GetChannel, lookupA_setA, hnm, cmsAddMode, cmsRemoveMode,
      cmsHasMode_cmsSet, cmsHasMode_cmsErase,
      (show ("+p").toList = ['+', 'p'] from rfl)]

/-- `stPsExcl` follows from the corresponding check on every stored entry. -/
theorem stPsExcl_of_forall (st : ServerState)
    (h : ∀ p ∈ st.channels, psExcl p.2.modes) : stPsExcl st :=
  fun nm ch hl => lookupA_forall st.channels (fun _ c => psExcl c.modes) h nm ch hl

/-- A server with channel `#m` carrying `p`, whose operator `op` issues `+s`. -/
def stPS : ServerState :=
  { serverName := "srv",
    clientsByNick := [("op", { nickname := "op", registered := true, channels := ["#m"] })],
    channels := [("#m", { name := "#m", modes := [('p', none)], members := [("op", [('o', none)])] })] }

/-- The `#m` channel value of `stPS`. -/
def chPS : Channel :=
  { name := "#m", modes := [('p', none)], members := [("op", [('o', none)])] }

/-- The operator client of `stPS`. -/
def opPS : Client := { nickname := "op", registered := true, channels := ["#m"] }

/-- Witness for C4: on the concrete `+p` channel `#m`, `+s` preserves the
exclusion invariant and ends with `s` set and `p` cleared. -/
theorem c4_private_secret_mutual_exclusion_witness :
    stPsExcl stPS ∧
    stPsExcl (ChannelModeHandler stPS opPS { pfx := none, command := "MODE", params := ["#m", "+s"], trailing := "" }).1 ∧
    ((ChannelModeHandler stPS opPS { pfx := none, command := "MODE", params := ["#m", "+s"], trailing := "" }).1.GetChannel "#m").map
        (fun c2 => (cmsHasMode c2.modes 's', cmsHasMode c2.modes 'p')) =
      some (true, false) :=
  ⟨stPsExcl_of_forall _ (by decide),
    c4_private_secret_mutual_exclusion.1 stPS opPS
      { pfx := none, command := "MODE", params := ["#m", "+s"], trailing := "" }
      (stPsExcl_of_forall _ (by decide)),
    c4_private_secret_mutual_exclusion.2.1 stPS opPS chPS "#m" none ""
      (by decide) (by decide) (by decide) (by decide)⟩

/-! ## C8: the anonymous channel flag -/

/-- Every line of a channel broadcast carries the broadcast message. -/
theorem mem_SendMessageTo (ch : Channel) (st : ServerState) (m : Message)
    (pr : String × Message) (h : pr ∈ ch.SendMessageTo st m) : pr.2 = m := by
  unfold Channel.SendMessageTo at h
  rw [List.mem_filterMap] at h
  obtain ⟨p, _, hp⟩ := h
  revert hp
  cases st.GetClientByNick p.1 with
  | none =>
    intro hp
    cases hp
  | some c =>
    intro hp
    cases hp
    rfl

/-- C8 (amended).  The anonymous flag `a`: on `#`- and `+`-channels both `+a`
and `-a` draw ERR_UNKNOWNMODE and leave the flag untouched; on `!`-channels
`+a` ends with the flag set while `-a` draws ERR_UNKNOWNMODE and leaves the
flag untouched; and on `&`-channels (not restricted by the source's name
switch) `+a` ends with the flag set and `-a` with the flag cleared, in both
cases with every emitted message a MODE broadcast (no ERR_UNKNOWNMODE). -/
theorem c8_anonymous_flag_rules :
    (∀ st cl ch nm pf t mp, st.GetChannel nm = some ch → ch.name = nm →
      ch.MemberHasMode cl.nickname 'o' = true →
      (ch.nameStart = '#' ∨ ch.nameStart = '+') → (mp = "+a" ∨ mp = "-a") →
      ((ChannelModeHandler st cl { pfx := pf, command := "MODE", params := [nm, mp], trailing := t }).1.GetChannel nm).map (fun c2 => cmsHasMode c2.modes 'a') = some (cmsHasMode ch.modes 'a') ∧
      (ChannelModeHandler st cl { pfx := pf, command := "MODE", params := [nm, mp], trailing := t }).2 = [unknownModeMsg st cl 'a' ch.name]) ∧
    (∀ st cl ch nm pf t, st.GetChannel nm = some ch → ch.name = nm →
      ch.MemberHasMode cl.nickname 'o' = true → ch.nameStart = '!' →
      ((ChannelModeHandler st cl { pfx := pf, command := "MODE", params := [nm, "+a"], trailing := t }).1.GetChannel nm).map (fun c2 => cmsHasMode c2.modes 'a') = some true ∧
      ∀ pr ∈ (ChannelModeHandler st cl { pfx := pf, command := "MODE", params := [nm, "+a"], trailing := t }).2, pr.2.command = "MODE") ∧
    (∀ st cl ch nm pf t, st.GetChannel nm = some ch → ch.name = nm →
      ch.MemberHasMode cl.nickname 'o' = true → ch.nameStart = '!' →
      ((ChannelModeHandler st cl { pfx := pf, command := "MODE", params := [nm, "-a"], trailing := t }).1.GetChannel nm).map (fun c2 => cmsHasMode c2.modes 'a') = some (cmsHasMode ch.modes 'a') ∧
      (ChannelModeHandler st cl { pfx := pf, command := "MODE", params := [nm, "-a"], trailing := t }).2 = [unknownModeMsg st cl 'a' ch.name]) ∧
    (∀ st cl ch nm pf t, st.GetChannel nm = some ch → ch.name = nm →
      ch.MemberHasMode cl.nickname 'o' = true → ch.nameStart = '&' →
      ((ChannelModeHandler st cl { pfx := pf, command := "MODE", params := [nm, "+a"], trailing := t }).1.GetChannel nm).map (fun c2 => cmsHasMode c2.modes 'a') = some true ∧
      ((ChannelModeHandler st cl { pfx := pf, command := "MODE", params := [nm, "-a"], trailing := t }).1.GetChannel nm).map (fun c2 => cmsHasMode c2.modes 'a') = some false ∧
      (∀ pr ∈ (ChannelModeHandler st cl { pfx := pf, command := "MODE", params := [nm, "+a"], trailing := t }).2, pr.2.command = "MODE") ∧
      (∀ pr ∈ (ChannelModeHandler st cl { pfx := pf, command := "MODE", params := [nm, "-a"], trailing := t }).2, pr.2.command = "MODE")) := by
  refine ⟨?_, ?_, ?_, ?_⟩
  · intro st cl ch nm pf t mp hch hnm hmem hn hmp
    have hch2 : lookupA st.channels nm = some ch := hch
    rcases hmp with h | h <;> subst h <;>
      constructor <;>
        simp [ChannelModeHandler, hch, hch2, hmem, processParams, processFlagChars,
          flagCharStep, plainFlagStep, hn, ServerState.GetChannel,
          ServerState.SetChannel, lookupA_setA, hnm,
          (show ("+a").toList = ['+', 'a'] from rfl),
          (show ("-a").toList = ['-', 'a'] from rfl)]
  · intro st cl ch nm pf t hch hnm hmem hn
    have hch2 : lookupA st.channels nm = some ch := hch
    by_cases hfound : cmsHasMode ch.modes 'a' = true
    · constructor
      · simp [ChannelModeHandler, hch, hch2, hmem, processParams, processFlagChars,
          flagCharStep, plainFlagStep, hn, hfound, ServerState.GetChannel,
          ServerState.SetChannel, lookupA_setA, hnm,
          (show ("+a").toList = ['+', 'a'] from rfl)]
      · intro pr hpr
        simp [ChannelModeHandler, hch, hch2, hmem, processParams, processFlagChars,
          flagCharStep, plainFlagStep, hn, hfound,
          (show ("+a").toList = ['+', 'a'] from rfl)] at hpr
    · have hout : (ChannelModeHandler st cl { pfx := pf, command := "MODE", params := [nm, "+a"], trailing := t }).2 =
          Channel.SendMessageTo { ch with modes := cmsAddMode ch.modes 'a' } st { pfx := some cl.nickname, command := "MODE", params := [ch.name, ("".push '+').push 'a'], trailing := "" } := by
        simp [ChannelModeHandler, hch, hch2, hmem, processParams, processFlagChars,
          flagCharStep, plainFlagStep, hn, hfound, modeChangeFold,
          (show ("+a").toList = ['+', 'a'] from rfl)]
      constructor
      · simp [ChannelModeHandler, hch, hch2, hmem, processParams, processFlagChars,
          flagCharStep, plainFlagStep, hn, hfound, ServerState.GetChannel,
          ServerState.SetChannel, lookupA_setA, hnm, cmsAddMode,
          cmsHasMode_cmsSet, (show ("+a").toList = ['+', 'a'] from rfl)]
      · intro pr hpr
        rw [hout] at hpr
        rw [mem_SendMessageTo _ _ _ _ hpr]
  · intro st cl ch nm pf t hch hnm hmem hn
    have hch2 : lookupA st.channels nm = some ch := hch
    constructor <;>
      simp [ChannelModeHandler, hch, hch2, hmem, processParams, processFlagChars,
        flagCharStep, plainFlagStep, hn, ServerState.GetChannel,
        ServerState.SetChannel, lookupA_setA, hnm,
        (show ("-a").toList = ['-', 'a'] from rfl)]
  · intro st cl ch nm pf t hch hnm hmem hn
    have hch2 : lookupA st.channels nm = some ch := hch
    refine ⟨?_, ?_, ?_, ?_⟩
    · by_cases hfound : cmsHasMode ch.modes 'a' = true
      · simp [ChannelModeHandler, hch, hch2, hmem, processParams, processFlagChars,
          flagCharStep, plainFlagStep, hn, hfound, ServerState.GetChannel,
          ServerState.SetChannel, lookupA_setA, hnm,
          (show ("+a").toList = ['+', 'a'] from rfl)]
      · simp [ChannelModeHandler, hch, hch2, hmem, processParams, processFlagChars,
          flagCharStep, plainFlagStep, hn, hfound, ServerState.GetChannel,
          ServerState.SetChannel, lookupA_setA, hnm, cmsAddMode,
          cmsHasMode_cmsSet, (show ("+a").toList = ['+', 'a'] from rfl)]
    · by_cases hfound : cmsHasMode ch.modes 'a' = true
      · simp [ChannelModeHandler, hch, hch2, hmem, processParams, processFlagChars,
          flagCharStep, plainFlagStep, hn, hfound, ServerState.GetChannel,
          ServerState.SetChannel, lookupA_setA, hnm, cmsRemoveMode,
          cmsHasMode_cmsErase, (show ("-a").toList = ['-', 'a'] from rfl)]
      · simp [ChannelModeHandler, hch, hch2, hmem, processParams, processFlagChars,
          flagCharStep, plainFlagStep, hn, hfound, ServerState.GetChannel,
          ServerState.SetChannel, lookupA_setA, hnm,
          (show ("-a").toList = ['-', 'a'] from rfl)]
    · by_cases hfound : cmsHasMode ch.modes 'a' = true
      · intro pr hpr
        simp [ChannelModeHandler, hch, hch2, hmem, processParams, processFlagChars,
          flagCharStep, plainFlagStep, hn, hfound,
          (show ("+a").toList = ['+', 'a'] from rfl)] at hpr
      · intro pr hpr
        have hout : (ChannelModeHandler st cl { pfx := pf, command := "MODE", params := [nm, "+a"], trailing := t }).2 =
            Channel.SendMessageTo { ch with modes := cmsAddMode ch.modes 'a' } st { pfx := some cl.nickname, command := "MODE", params := [ch.name, ("".push '+').push 'a'], trailing := "" } := by
          simp [ChannelModeHandler, hch, hch2, hmem, processParams, processFlagChars,
            flagCharStep, plainFlagStep, hn, hfound, modeChangeFold,
            (show ("+a").toList = ['+', 'a'] from rfl)]
        rw [hout] at hpr
        rw [mem_SendMessageTo _ _ _ _ hpr]
    · by_cases hfound : cmsHasMode ch.modes 'a' = true
      · intro pr hpr
        have hout : (ChannelModeHandler st cl { pfx := pf, command := "MODE", params := [nm, "-a"], trailing := t }).2 =
            Channel.SendMessageTo { ch with modes := cmsRemoveMode ch.modes 'a' } st { pfx := some cl.nickname, command := "MODE", params := [ch.name, ("".push '-').push 'a'], trailing := "" } := by
          simp [ChannelModeHandler, hch, hch2, hmem, processParams, processFlagChars,
            flagCharStep, plainFlagStep, hn, hfound, modeChangeFold,
            (show ("-a").toList = ['-', 'a'] from rfl)]
        rw [hout] at hpr
        rw [mem_SendMessageTo _ _ _ _ hpr]
      · intro pr hpr
        simp [ChannelModeHandler, hch, hch2, hmem, processParams, processFlagChars,
          flagCharStep, plainFlagStep, hn, hfound,
          (show ("-a").toList = ['-', 'a'] from rfl)] at hpr

/-- Operator client joined to one channel `#h`. -/
def opH : Client := { nickname := "op", registered := true, channels := ["#h"] }

/-- A `#`-channel with operator `op`. -/
def chHashW : Channel := { name := "#h", members := [("op", [('o', none)])] }

/-- Server holding `#h`. -/
def stHashW : ServerState :=
  { serverName := "srv", clientsByNick := [("op", opH)], channels := [("#h", chHashW)] }

/-- Operator client joined to one channel `!h`. -/
def opB : Client := { nickname := "op", registered := true, channels := ["!h"] }

/-- A `!`-channel with operator `op`. -/
def chBangW : Channel := { name := "!h", members := [("op", [('o', none)])] }

/-- Server holding `!h`. -/
def stBangW : ServerState :=
  { serverName := "srv", clientsByNick := [("op", opB)], channels := [("!h", chBangW)] }

/-- Operator client joined to one channel `&h`. -/
def opA : Client := { nickname := "op", registered := true, channels := ["&h"] }

/-- The `&h` channel value of `stAmp`. -/
def chAmpW : Channel := { name := "&h", members := [("op", [('o', none)])] }

/-- Witness for C8: `+a` on `#h` draws ERR_UNKNOWNMODE and changes nothing;
`+a` on `!h` and on `&h` sets the flag. -/
theorem c8_anonymous_flag_rules_witness :
    (ChannelModeHandler stHashW opH { pfx := none, command := "MODE", params := ["#h", "+a"], trailing := "" }).2 = [unknownModeMsg stHashW opH 'a' chHashW.name] ∧
    ((ChannelModeHandler stBangW opB { pfx := none, command := "MODE", params := ["!h", "+a"], trailing := "" }).1.GetChannel "!h").map (fun c2 => cmsHasMode c2.modes 'a') = some true ∧
    ((ChannelModeHandler stAmp opA { pfx := none, command := "MODE", params := ["&h", "+a"], trailing := "" }).1.GetChannel "&h").map (fun c2 => cmsHasMode c2.modes 'a') = some true :=
  ⟨(c8_anonymous_flag_rules.1 stHashW opH chHashW "#h" none "" "+a" (by decide)
      (by decide) (by decide) (by decide) (Or.inl rfl)).2,
    (c8_anonymous_flag_rules.2.1 stBangW opB chBangW "!h" none "" (by decide)
      (by decide) (by decide) (by decide)).1,
    (c8_anonymous_flag_rules.2.2.2 stAmp opA chAmpW "&h" none "" (by decide)
      (by decide) (by decide) (by decide)).1⟩

/-! ## C5: the MODE broadcast and its compaction -/

theorem strmk_append (a b : List Char) :
    String.mk a ++ String.mk b = String.mk (a ++ b) := rfl

theorem push_eq (s : String) (c : Char) : s.push c = s ++ String.mk [c] := by
  cases s
  rfl

theorem str_append_assoc (a b c : String) : a ++ b ++ c = a ++ (b ++ c) := by
  cases a
  cases b
  cases c
  show String.mk _ = String.mk _
  rw [List.append_assoc]

theorem str_append_empty (s : String) : s ++ "" = s := by
  cases s
  show String.mk _ = String.mk _
  rw [List.append_nil]

theorem str_empty_append (s : String) : "" ++ s = s := by
  cases s
  rfl

/-- Sign-suppressing rendering of a change list relative to the previous
sign: the fold of the source, expressed recursively. -/
def specCompactFrom (prev : Char) (l : List FullFlag) : String :=
  match l with
  | [] => ""
  | c :: rest =>
    (if c.modifier ≠ prev then String.mk [c.modifier] else "") ++
      String.mk [c.mode] ++ specCompactFrom c.modifier rest

/-- Run-based rendering relative to the previous sign: the first run's sign
is suppressed when it equals `prev`. -/
def runsStringFrom (prev : Char) (l : List FullFlag) : String :=
  match modeRuns l with
  | [] => ""
  | (m, ms) :: rs =>
    (if m ≠ prev then String.mk [m] else "") ++ String.mk ms ++
      strConcat (rs.map (fun r => String.mk (r.1 :: r.2)))

theorem modeChangeFold_eq (l : List FullFlag) :
    ∀ prev s ps,
      modeChangeFold l prev s ps = (s ++ specCompactFrom prev l, ps ++ changeParams l) := by
  induction l with
  | nil =>
    intro prev s ps
    simp [modeChangeFold, specCompactFrom, changeParams, str_append_empty]
  | cons c rest ih =>
    intro prev s ps
    simp only [modeChangeFold]
    rw [ih]
    by_cases hmp : c.modifier = prev <;> by_cases hpp : c.param = "" <;>
      simp [specCompactFrom, changeParams, List.filterMap_cons, hmp, hpp,
        push_eq, str_append_assoc, str_empty_append]

theorem modeRuns_cons (c : FullFlag) (rest : List FullFlag) :
    ∃ ms rs, modeRuns (c :: rest) = (c.modifier, ms) :: rs := by
  unfold modeRuns
  cases modeRuns rest with
  | nil => exact ⟨[c.mode], [], rfl⟩
  | cons r rs2 =>
    obtain ⟨m, ms⟩ := r
    dsimp only
    by_cases h : c.modifier = m
    · rw [if_pos h]
      exact ⟨c.mode :: ms, rs2, rfl⟩
    · rw [if_neg h]
      exact ⟨[c.mode], (m, ms) :: rs2, rfl⟩

theorem strmk_cons_split (x : Char) (xs : List Char) :
    String.mk (x :: xs) = String.mk [x] ++ String.mk xs := rfl

theorem specCompactFrom_eq_runs (l : List FullFlag) :
    ∀ prev, specCompactFrom prev l = runsStringFrom prev l := by
  induction l with
  | nil =>
    intro prev
    rfl
  | cons c rest ih =>
    intro prev
    simp only [specCompactFrom]
    rw [ih c.modifier]
    cases hr : modeRuns rest with
    | nil =>
      have hlhs : runsStringFrom c.modifier rest = "" := by
        unfold runsStringFrom
        rw [hr]
      have h2 : modeRuns (c :: rest) = [(c.modifier, [c.mode])] := by
        unfold modeRuns
        rw [hr]
      rw [hlhs]
      unfold runsStringFrom
      rw [h2]
      dsimp only
      simp [strConcat, str_append_empty, str_append_assoc]
    | cons r rs =>
      obtain ⟨m, ms⟩ := r
      have hlhs : runsStringFrom c.modifier rest =
          (if m ≠ c.modifier then String.mk [m] else "") ++ String.mk ms ++
            strConcat (rs.map (fun r => String.mk (r.1 :: r.2))) := by
        unfold runsStringFrom
        rw [hr]
      by_cases h : c.modifier = m
      · have h2 : modeRuns (c :: rest) = (c.modifier, c.mode :: ms) :: rs := by
          unfold modeRuns
          rw [hr]
          dsimp only
          rw [if_pos h]
        have hrhs : runsStringFrom prev (c :: rest) =
            (if c.modifier ≠ prev then String.mk [c.modifier] else "") ++
              String.mk (c.mode :: ms) ++
              strConcat (rs.map (fun r => String.mk (r.1 :: r.2))) := by
          unfold runsStringFrom
          rw [h2]
        rw [hlhs, hrhs, if_neg (fun hne : m ≠ c.modifier => hne h.symm),
          strmk_cons_split c.mode ms]
        first
        | rfl
        | simp [str_empty_append, str_append_assoc]
      · have h2 : modeRuns (c :: rest) = (c.modifier, [c.mode]) :: (m, ms) :: rs := by
          unfold modeRuns
          rw [hr]
          dsimp only
          rw [if_neg h]
        have hrhs : runsStringFrom prev (c :: rest) =
            (if c.modifier ≠ prev then String.mk [c.modifier] else "") ++
              String.mk [c.mode] ++
              strConcat (((m, ms) :: rs).map (fun r => String.mk (r.1 :: r.2))) := by
          unfold runsStringFrom
          rw [h2]
        rw [hlhs, hrhs, if_pos (fun heq : m = c.modifier => h heq.symm)]
        first
        | rfl
        | (simp only [List.map_cons, strConcat, strmk_cons_split m ms]
           simp [str_append_assoc])

theorem specCompactFrom_blank (l : List FullFlag)
    (h : ∀ c ∈ l, c.modifier ≠ ' ') : specCompactFrom ' ' l = specCompact l := by
  rw [specCompactFrom_eq_runs]
  cases l with
  | nil => rfl
  | cons c rest =>
    obtain ⟨ms, rs, hr⟩ := modeRuns_cons c rest
    have hcm : c.modifier ≠ ' ' := h c (List.mem_cons_self _ _)
    have hlhs : runsStringFrom ' ' (c :: rest) =
        String.mk [c.modifier] ++ String.mk ms ++
          strConcat (rs.map (fun r => String.mk (r.1 :: r.2))) := by
      unfold runsStringFrom
      rw [hr]
      dsimp only
      rw [if_pos hcm]
    have hrhs : specCompact (c :: rest) =
        String.mk (c.modifier :: ms) ++
          strConcat (rs.map (fun r => String.mk (r.1 :: r.2))) := by
      unfold specCompact
      rw [hr]
      dsimp only [List.map_cons]
      rfl
    rw [hlhs, hrhs, strmk_cons_split c.modifier ms]

/-- A change or queued flag whose sign is `+` or `-`. -/
def goodFlagMod (c : FullFlag) : Prop := c.modifier = '+' ∨ c.modifier = '-'

/-- Invariant of the `ChannelModeHandler` loop: every queued flag and every
recorded change carries a `+`/`-` sign, and every emitted reply so far is
ERR_UNKNOWNMODE. -/
def goodLoop (ls : MLoop) : Prop :=
  (∀ c ∈ ls.needsArgs, goodFlagMod c) ∧ (∀ c ∈ ls.changes, goodFlagMod c) ∧
    (∀ pr ∈ ls.msgs, pr.2.command = ERR_UNKNOWNMODE)

theorem forall_append_one {α : Type} (l : List α) (x : α) (P : α → Prop)
    (h1 : ∀ c ∈ l, P c) (h2 : P x) : ∀ c ∈ l ++ [x], P c := by
  intro c hc
  rcases List.mem_append.mp hc with h | h
  · exact h1 c h
  · rw [List.mem_singleton] at h
    subst h
    exact h2

theorem goodLoop_processArgParam (st : ServerState) (cl : Client) (ls : MLoop)
    (p : String) (h : goodLoop ls) : goodLoop (processArgParam st cl ls p) := by
  unfold processArgParam
  cases hq : ls.needsArgs with
  | nil => exact h
  | cons mode0 restArgs =>
    have hm0 : goodFlagMod mode0 := h.1 mode0 (by rw [hq]; exact List.mem_cons_self _ _)
    have hrest : ∀ c ∈ restArgs, goodFlagMod c := fun c hc =>
      h.1 c (by rw [hq]; exact List.mem_cons_of_mem _ hc)
    dsimp only
    split
    · refine ⟨?_, h.2.1, h.2.2⟩
      intro c hc
      exact absurd hc (List.not_mem_nil c)
    · split
      · split
        · exact ⟨hrest, h.2.1, h.2.2⟩
        · split
          · split
            · exact ⟨hrest, forall_append_one _ _ _ h.2.1 hm0, h.2.2⟩
            · exact ⟨hrest, h.2.1, h.2.2⟩
          · split
            · exact ⟨hrest, forall_append_one _ _ _ h.2.1 hm0, h.2.2⟩
            · exact ⟨hrest, h.2.1, h.2.2⟩
      · split
        · split
          · exact ⟨hrest, forall_append_one _ _ _ h.2.1 hm0, h.2.2⟩
          · exact ⟨hrest, h.2.1, h.2.2⟩
        · split
          · exact ⟨hrest, forall_append_one _ _ _ h.2.1 hm0, h.2.2⟩
          · split
            · split
              · exact ⟨hrest, h.2.1, h.2.2⟩
              · exact ⟨hrest, forall_append_one _ _ _ h.2.1 hm0, h.2.2⟩
            · exact ⟨hrest, h.2.1, h.2.2⟩

theorem goodLoop_plainFlagStep (st : ServerState) (cl : Client) (ls : MLoop)
    (modifier c : Char) (hmod : modifier = '+' ∨ modifier = '-')
    (h : goodLoop ls) : goodLoop (plainFlagStep st cl ls modifier c) := by
  by_cases h1 : c = 'a' ∧ (ls.ch.nameStart = '#' ∨ ls.ch.nameStart = '+')
  · simp only [plainFlagStep, if_pos h1]
    exact ⟨h.1, h.2.1, forall_append_one _ _ _ h.2.2 rfl⟩
  · by_cases h2 : c = 'a' ∧ ls.ch.nameStart = '!' ∧ modifier = '-'
    · simp only [plainFlagStep, if_neg h1, if_pos h2]
      exact ⟨h.1, h.2.1, forall_append_one _ _ _ h.2.2 rfl⟩
    · by_cases h3 : modifier = '+'
      · by_cases h4 : cmsHasMode ls.ch.modes c = true
        · simp [plainFlagStep, h1, h2, h3, h4]
          exact h
        · by_cases h5 : c = 'p' ∧ cmsHasMode ls.ch.modes 's' = true
          · simp [plainFlagStep, h1, h2, h3, h4, h5]
            exact h
          · simp [plainFlagStep, h1, h2, h3, h4, h5]
            exact ⟨h.1, forall_append_one _ _ _ h.2.1 (Or.inl rfl), h.2.2⟩
      · by_cases h4 : cmsHasMode ls.ch.modes c = true
        · simp [plainFlagStep, h1, h2, h3, h4]
          exact ⟨h.1, forall_append_one _ _ _ h.2.1 hmod, h.2.2⟩
        · simp [plainFlagStep, h1, h2, h3, h4]
          exact h

theorem goodLoop_flagCharStep (st : ServerState) (cl : Client) (ls : MLoop)
    (modifier c : Char) (hmod : modifier = '+' ∨ modifier = '-')
    (h : goodLoop ls) :
    goodLoop (flagCharStep st cl ls modifier c).1 ∧
      ((flagCharStep st cl ls modifier c).2 = '+' ∨
        (flagCharStep st cl ls modifier c).2 = '-') := by
  unfold flagCharStep
  split
  · exact ⟨h, Or.inl rfl⟩
  · split
    · exact ⟨h, Or.inr rfl⟩
    · split
      · exact ⟨⟨forall_append_one _ _ _ h.1 hmod, h.2.1, h.2.2⟩, hmod⟩
      · split
        · refine ⟨?_, hmod⟩
          split
          · exact ⟨forall_append_one _ _ _ h.1 hmod, h.2.1, h.2.2⟩
          · exact h
        · split
          · exact ⟨goodLoop_plainFlagStep st cl ls modifier _ hmod h, hmod⟩
          · exact ⟨⟨h.1, h.2.1, forall_append_one _ _ _ h.2.2 rfl⟩, hmod⟩

theorem goodLoop_processFlagChars (st : ServerState) (cl : Client)
    (chars : List Char) :
    ∀ ls modifier, (modifier = '+' ∨ modifier = '-') → goodLoop ls →
      goodLoop (processFlagChars st cl ls modifier chars) := by
  induction chars with
  | nil =>
    intro ls modifier _ h
    exact h
  | cons c rest ih =>
    intro ls modifier hmod h
    have hstep := goodLoop_flagCharStep st cl ls modifier c hmod h
    exact ih _ _ hstep.2 hstep.1

theorem goodLoop_processParams (st : ServerState) (cl : Client)
    (params : List String) :
    ∀ ls, goodLoop ls → goodLoop (processParams st cl ls params) := by
  induction params with
  | nil =>
    intro ls h
    exact h
  | cons p rest ih =>
    intro ls h
    simp only [processParams]
    split
    · split
      · exact goodLoop_processArgParam st cl ls p h
      · exact ih _ (goodLoop_processArgParam st cl ls p h)
    · exact ih _ (goodLoop_processFlagChars st cl _ _ _ (Or.inl rfl) h)

/-- Every reply of the b/e/I list query is a numbered list reply, never a
MODE broadcast. -/
theorem mem_maskListReplies_command (st : ServerState) (cl : Client)
    (ch : Channel) (arg : FullFlag) (pr : String × Message)
    (h : pr ∈ maskListReplies st cl ch arg) : pr.2.command ≠ "MODE" := by
  unfold maskListReplies at h
  split at h
  · rcases List.mem_append.mp h with h1 | h1
    · obtain ⟨m, _, hm⟩ := List.mem_map.mp h1
      cases hm
      exact (by decide : RPL_BANLIST ≠ ("MODE" : String))
    · rw [List.mem_singleton] at h1
      subst h1
      exact (by decide : RPL_ENDOFBANLIST ≠ ("MODE" : String))
  · split at h
    · rcases List.mem_append.mp h with h1 | h1
      · obtain ⟨m, _, hm⟩ := List.mem_map.mp h1
        cases hm
        exact (by decide : RPL_EXCEPTLIST ≠ ("MODE" : String))
      · rw [List.mem_singleton] at h1
        subst h1
        exact (by decide : RPL_ENDOFEXCEPTLIST ≠ ("MODE" : String))
    · split at h
      · rcases List.mem_append.mp h with h1 | h1
        · obtain ⟨m, _, hm⟩ := List.mem_map.mp h1
          cases hm
          exact (by decide : RPL_INVITELIST ≠ ("MODE" : String))
        · rw [List.mem_singleton] at h1
          subst h1
          exact (by decide : RPL_ENDOFINVITELIST ≠ ("MODE" : String))
      · exact absurd h (List.not_mem_nil pr)

/-- C5.  For a channel MODE command with arguments issued by a channel
operator: when the loop records no effective change, no emitted message is a
MODE broadcast (the output is only ERR_UNKNOWNMODE replies and b/e/I list
replies); when it records at least one change, the output is exactly the
loop's error replies followed by one MODE message per directory-resolvable
member, whose mode string is the claim-side run compaction `specCompact` of
the changes in processing order and whose parameters are `changeParams`, the
parameters of the parameterised changes in the same order. -/
theorem c5_mode_broadcast_compaction (st : ServerState) (cl : Client)
    (msg : Message) (nm : String) (restParams : List String) (ch : Channel)
    (hpar : msg.params = nm :: restParams) (hne : restParams ≠ [])
    (hch : st.GetChannel nm = some ch)
    (hmem : ch.MemberHasMode cl.nickname 'o' = true) :
    ((processParams st cl { ch := ch } restParams).changes = [] →
      ∀ pr ∈ (ChannelModeHandler st cl msg).2, pr.2.command ≠ "MODE") ∧
    ((processParams st cl { ch := ch } restParams).changes ≠ [] →
      (ChannelModeHandler st cl msg).2 =
        (processParams st cl { ch := ch } restParams).msgs ++
          (processParams st cl { ch := ch } restParams).ch.SendMessageTo st
            { pfx := some cl.nickname, command := "MODE", params := [(processParams st cl { ch := ch } restParams).ch.name, specCompact (processParams st cl { ch := ch } restParams).changes] ++ changeParams (processParams st cl { ch := ch } restParams).changes, trailing := "" } ∧
      ∀ pr ∈ (processParams st cl { ch := ch } restParams).msgs,
        pr.2.command = ERR_UNKNOWNMODE) := by
  have hgood : goodLoop (processParams st cl { ch := ch } restParams) :=
    goodLoop_processParams st cl restParams { ch := ch }
      ⟨fun c hc => absurd hc (List.not_mem_nil c),
        fun c hc => absurd hc (List.not_mem_nil c),
        fun pr hpr => absurd hpr (List.not_mem_nil pr)⟩
  constructor
  · intro hchg pr hpr
    simp [ChannelModeHandler, hpar, hch, hmem, hne, hchg] at hpr
    rcases hpr with hpr | hpr
    · have hcmd := hgood.2.2 pr hpr
      rw [hcmd]
      decide
    · revert hpr
      cases hna : (processParams st cl { ch := ch } restParams).needsArgs with
      | nil =>
        intro hpr
        exact absurd hpr (List.not_mem_nil pr)
      | cons arg rest =>
        intro hpr
        exact mem_maskListReplies_command st cl _ arg pr hpr
  · intro hchg
    have hmods : ∀ c ∈ (processParams st cl { ch := ch } restParams).changes,
        c.modifier ≠ ' ' := by
      intro c hc
      rcases hgood.2.1 c hc with h1 | h1 <;> (rw [h1]; decide)
    have hfold := modeChangeFold_eq
      (processParams st cl { ch := ch } restParams).changes ' ' "" []
    have hspec : (modeChangeFold (processParams st cl { ch := ch } restParams).changes ' ' "" []).1 =
        specCompact (processParams st cl { ch := ch } restParams).changes := by
      rw [hfold]
      dsimp only
      rw [str_empty_append, specCompactFrom_blank _ hmods]
    have hparams : (modeChangeFold (processParams st cl { ch := ch } restParams).changes ' ' "" []).2 =
        changeParams (processParams st cl { ch := ch } restParams).changes := by
      rw [hfold]
      simp
    refine ⟨?_, fun pr hpr => hgood.2.2 pr hpr⟩
    simp [ChannelModeHandler, hpar, hch, hmem, hne, hchg, hspec, hparams]

/-- Channel `#w` with topic-mode set, operator `op` and member `ann`. -/
def chC5 : Channel :=
  { name := "#w", modes := [('t', none)],
    members := [("op", [('o', none)]), ("ann", [])] }

/-- Server holding `#w` and its two members. -/
def stC5 : ServerState :=
  { serverName := "srv",
    clientsByNick :=
      [("op", { nickname := "op", registered := true, channels := ["#w"] }),
       ("ann", { nickname := "ann", registered := true, channels := ["#w"] })],
    channels := [("#w", chC5)] }

/-- The operator of `#w`. -/
def opC5 : Client := { nickname := "op", registered := true, channels := ["#w"] }

/-- `MODE #w +s-t+l 5` issued by `op`. -/
def msgC5 : Message :=
  { pfx := none, command := "MODE", params := ["#w", "+s-t+l", "5"], trailing := "" }

/-- Witness for C5: `MODE #w +s-t+l 5` records the changes `+s`, `-t`,
`+l 5`; the broadcast mode string is the run compaction `+s-t+l` with
parameter list `["5"]`, and the output is exactly the per-member MODE
broadcast. -/
theorem c5_mode_broadcast_compaction_witness :
    (processParams stC5 opC5 { ch := chC5 } ["+s-t+l", "5"]).changes ≠ [] ∧
    specCompact (processParams stC5 opC5 { ch := chC5 } ["+s-t+l", "5"]).changes = "+s-t+l" ∧
    changeParams (processParams stC5 opC5 { ch := chC5 } ["+s-t+l", "5"]).changes = ["5"] ∧
    (ChannelModeHandler stC5 opC5 msgC5).2 =
      (processParams stC5 opC5 { ch := chC5 } ["+s-t+l", "5"]).msgs ++
        (processParams stC5 opC5 { ch := chC5 } ["+s-t+l", "5"]).ch.SendMessageTo stC5
          { pfx := some opC5.nickname, command := "MODE", params := [(processParams stC5 opC5 { ch := chC5 } ["+s-t+l", "5"]).ch.name, specCompact (processParams stC5 opC5 { ch := chC5 } ["+s-t+l", "5"]).changes] ++ changeParams (processParams stC5 opC5 { ch := chC5 } ["+s-t+l", "5"]).changes, trailing := "" } :=
  ⟨by decide, by decide, by decide,
    ((c5_mode_broadcast_compaction stC5 opC5 msgC5 "#w" ["+s-t+l", "5"] chC5
        rfl (by decide) (by decide) (by decide)).2 (by decide)).1⟩

end IrcSpec
